import Mathlib

/-!
MIDI message codec (package `midi`, file `v2/message.go`)

A shallow embedding of the message extractors of `v2/message.go` together with
the helpers they call, followed by the running-status writer and reader, the
options of `smf/smfreader/options.go`, the SMF read functions of
`mid/reader_smf.go`, the positions and variable-length quantities of an SMF
file, the messages of `v2/smf/message.go` and `Send` of
`v2/drivers/portmididrv/out.go`.  A Go byte slice is a list of natural numbers (a byte is
an entry below 256; no statement below needs that bound, so each one holds in
particular for all byte sequences).  A Go function that writes through pointer
arguments takes the values the pointees hold before the call and returns the
values they hold after it, next to its boolean result.  A run-time panic
(index out of range) is the result `none`.
-/

namespace Midi

/-- Message is a complete midi message (not including meta messages):
`type Message []byte`. -/
abbrev Message := List Nat

/-- Modelled from the spec: the declaration of `Type` is missing.  The closed
enumeration of message types of section 3 (channel, system common, system
real-time and sysex), preceded by `UnknownMsg` and followed by the three markers
that stand for a whole family when passed to `Is`. -/
inductive MsgType
  | UnknownMsg
  | NoteOffMsg
  | NoteOnMsg
  | PolyAfterTouchMsg
  | ControlChangeMsg
  | ProgramChangeMsg
  | AfterTouchMsg
  | PitchBendMsg
  | MTCMsg
  | SPPMsg
  | SongSelectMsg
  | TuneMsg
  | TimingClockMsg
  | StartMsg
  | ContinueMsg
  | StopMsg
  | ActiveSenseMsg
  | ResetMsg
  | SysExMsg
  | ChannelMsg
  | SysCommonMsg
  | RealTimeMsg
  deriving DecidableEq, Repr

open MsgType

/-- Modelled from the spec: `utils.ParseStatus` is missing.  The `splitStatus`
of section 4.1: the high nibble of a status byte and the channel held in its
low nibble. -/
def ParseStatus (b : Nat) : Nat × Nat :=
  ((b &&& 0xF0) >>> 4, b &&& 0x0F)

/-- Modelled from the spec: `utils.ParseUint7` is missing.  A data byte carries
seven bits: the value is the byte without its high bit. -/
def ParseUint7 (b : Nat) : Nat :=
  b &&& 0x7F

/-- Modelled from the spec: `utils.ParseTwoUint7` is missing.  Two data bytes,
each without its high bit. -/
def ParseTwoUint7 (b1 b2 : Nat) : Nat × Nat :=
  (b1 &&& 0x7F, b2 &&& 0x7F)

/-- Modelled from the spec: `utils.ParsePitchWheelVals` is missing.  The
`assemblePitch(lsb, msb)` of section 4.1: the 14-bit absolute value assembled
from two 7-bit halves, and the relative value with its zero point at 8192. -/
def ParsePitchWheelVals (b1 b2 : Nat) : Int × Nat :=
  let val := ((b2 &&& 0x7F) <<< 7) ||| (b1 &&& 0x7F)
  ((val : Int) - 0x2000, val)

/-- Modelled from the spec: the classifier of channel status bytes is missing.
The channel type of a high nibble (section 4.2; the nibbles are those of
`TestChannelRaw`). -/
def channelType (nibble : Nat) : MsgType :=
  match nibble with
  | 0x8 => NoteOffMsg
  | 0x9 => NoteOnMsg
  | 0xA => PolyAfterTouchMsg
  | 0xB => ControlChangeMsg
  | 0xC => ProgramChangeMsg
  | 0xD => AfterTouchMsg
  | 0xE => PitchBendMsg
  | _ => UnknownMsg

/-- Modelled from the spec: `getType` is missing.  The classifier of section
4.2: the type of a message is that of its status byte, `UnknownMsg` when there
is none or when it belongs to no family. -/
def getType (m : Message) : MsgType :=
  match m with
  | [] => UnknownMsg
  | status :: _ =>
    if 0x80 ≤ status ∧ status ≤ 0xEF then channelType (ParseStatus status).1
    else
      match status with
      | 0xF0 => SysExMsg
      | 0xF1 => MTCMsg
      | 0xF2 => SPPMsg
      | 0xF3 => SongSelectMsg
      | 0xF6 => TuneMsg
      | 0xF8 => TimingClockMsg
      | 0xFA => StartMsg
      | 0xFB => ContinueMsg
      | 0xFC => StopMsg
      | 0xFE => ActiveSenseMsg
      | 0xFF => ResetMsg
      | _ => UnknownMsg

/-- Modelled from the spec: the families of section 3 (`Type.Is` is missing).
The family marker of a concrete type. -/
def MsgType.family (t : MsgType) : Option MsgType :=
  match t with
  | NoteOffMsg | NoteOnMsg | PolyAfterTouchMsg | ControlChangeMsg
  | ProgramChangeMsg | AfterTouchMsg | PitchBendMsg => some ChannelMsg
  | MTCMsg | SPPMsg | SongSelectMsg | TuneMsg => some SysCommonMsg
  | TimingClockMsg | StartMsg | ContinueMsg | StopMsg | ActiveSenseMsg
  | ResetMsg => some RealTimeMsg
  | _ => none

/-- Modelled from the spec: `Type.Is` is missing.  A type is of the given type
when it is that type or belongs to the family it stands for. -/
def MsgType.Is (t checker : MsgType) : Bool :=
  t == checker || t.family == some checker

/-- Modelled from the spec: `Type.String` is missing.  The name of a type, as
`TestChannelString` prints it. -/
def MsgType.String (t : MsgType) : String :=
  match t with
  | UnknownMsg => "UnknownMsg"
  | NoteOffMsg => "NoteOffMsg"
  | NoteOnMsg => "NoteOnMsg"
  | PolyAfterTouchMsg => "PolyAfterTouchMsg"
  | ControlChangeMsg => "ControlChangeMsg"
  | ProgramChangeMsg => "ProgramChangeMsg"
  | AfterTouchMsg => "AfterTouchMsg"
  | PitchBendMsg => "PitchBendMsg"
  | MTCMsg => "MTCMsg"
  | SPPMsg => "SPPMsg"
  | SongSelectMsg => "SongSelectMsg"
  | TuneMsg => "TuneMsg"
  | TimingClockMsg => "TimingClockMsg"
  | StartMsg => "StartMsg"
  | ContinueMsg => "ContinueMsg"
  | StopMsg => "StopMsg"
  | ActiveSenseMsg => "ActiveSenseMsg"
  | ResetMsg => "ResetMsg"
  | SysExMsg => "SysExMsg"
  | ChannelMsg => "ChannelMsg"
  | SysCommonMsg => "SysCommonMsg"
  | RealTimeMsg => "RealTimeMsg"

/-- Is returns true, if the message is of the given type:
`m.Type().Is(t)` with `m.Type() = getType(m)`. -/
def Message.Is (m : Message) (t : MsgType) : Bool :=
  (getType m).Is t

/-- GetNoteOn returns true if (and only if) the message is a NoteOnMsg.
Then it also extracts the data to the given arguments. -/
def Message.GetNoteOn (m : Message) (channel key velocity : Nat) :
    Option (Bool × Nat × Nat × Nat) :=
  if !m.Is NoteOnMsg then some (false, channel, key, velocity)
  else do
    let b0 ← m[0]?
    let channel := (ParseStatus b0).2
    let b1 ← m[1]?
    let b2 ← m[2]?
    let kv := ParseTwoUint7 b1 b2
    some (true, channel, kv.1, kv.2)

/-- GetNoteStart returns true if (and only if) the message is a NoteOnMsg with
a velocity > 0.  Then it also extracts the data to the given arguments. -/
def Message.GetNoteStart (m : Message) (channel key velocity : Nat) :
    Option (Bool × Nat × Nat × Nat) :=
  if !m.Is NoteOnMsg then some (false, channel, key, velocity)
  else do
    let b0 ← m[0]?
    let channel := (ParseStatus b0).2
    let b1 ← m[1]?
    let b2 ← m[2]?
    let kv := ParseTwoUint7 b1 b2
    if kv.2 == 0 then some (false, channel, kv.1, kv.2)
    else some (true, channel, kv.1, kv.2)

/-- GetNoteOff returns true if (and only if) the message is a NoteOffMsg.
Then it also extracts the data to the given arguments. -/
def Message.GetNoteOff (m : Message) (channel key velocity : Nat) :
    Option (Bool × Nat × Nat × Nat) :=
  if !m.Is NoteOffMsg then some (false, channel, key, velocity)
  else do
    let b0 ← m[0]?
    let channel := (ParseStatus b0).2
    let b1 ← m[1]?
    let b2 ← m[2]?
    let kv := ParseTwoUint7 b1 b2
    some (true, channel, kv.1, kv.2)

/-- GetChannel returns true if (and only if) the message is a ChannelMsg.
Then it also extracts the channel to the given argument. -/
def Message.GetChannel (m : Message) (channel : Nat) : Option (Bool × Nat) :=
  if !m.Is ChannelMsg then some (false, channel)
  else do
    let b0 ← m[0]?
    some (true, (ParseStatus b0).2)

/-- GetNoteEnd returns true if (and only if) the message is a NoteOnMsg with a
velocity == 0 or a NoteOffMsg.  Then it also extracts the data to the given
arguments. -/
def Message.GetNoteEnd (m : Message) (channel key : Nat) :
    Option (Bool × Nat × Nat) :=
  if !m.Is NoteOnMsg && !m.Is NoteOffMsg then some (false, channel, key)
  else do
    let b0 ← m[0]?
    let channel := (ParseStatus b0).2
    let b1 ← m[1]?
    let b2 ← m[2]?
    let kv := ParseTwoUint7 b1 b2
    some (m.Is NoteOffMsg || kv.2 == 0, channel, kv.1)

/-- GetPolyAfterTouch returns true if (and only if) the message is a
PolyAfterTouchMsg.  Then it also extracts the data to the given arguments. -/
def Message.GetPolyAfterTouch (m : Message) (channel key pressure : Nat) :
    Option (Bool × Nat × Nat × Nat) :=
  if !m.Is PolyAfterTouchMsg then some (false, channel, key, pressure)
  else do
    let b0 ← m[0]?
    let channel := (ParseStatus b0).2
    let b1 ← m[1]?
    let b2 ← m[2]?
    let kp := ParseTwoUint7 b1 b2
    some (true, channel, kp.1, kp.2)

/-- GetAfterTouch returns true if (and only if) the message is a AfterTouchMsg.
Then it also extracts the data to the given arguments. -/
def Message.GetAfterTouch (m : Message) (channel pressure : Nat) :
    Option (Bool × Nat × Nat) :=
  if !m.Is AfterTouchMsg then some (false, channel, pressure)
  else do
    let b0 ← m[0]?
    let channel := (ParseStatus b0).2
    let b1 ← m[1]?
    some (true, channel, ParseUint7 b1)

/-- GetProgramChange returns true if (and only if) the message is a
ProgramChangeMsg.  Then it also extracts the data to the given arguments. -/
def Message.GetProgramChange (m : Message) (channel program : Nat) :
    Option (Bool × Nat × Nat) :=
  if !m.Is ProgramChangeMsg then some (false, channel, program)
  else do
    let b0 ← m[0]?
    let channel := (ParseStatus b0).2
    let b1 ← m[1]?
    some (true, channel, ParseUint7 b1)

/-- GetPitchBend returns true if (and only if) the message is a PitchBendMsg.
Then it also extracts the data to the given arguments.  Either relative or
absolute may be nil, if not needed: a nil pointer is `none`, a pointer is the
value its pointee holds. -/
def Message.GetPitchBend (m : Message) (channel : Nat) (relative : Option Int)
    (absolute : Option Nat) : Option (Bool × Nat × Option Int × Option Nat) :=
  if !m.Is PitchBendMsg then some (false, channel, relative, absolute)
  else do
    let b0 ← m[0]?
    let channel := (ParseStatus b0).2
    let b1 ← m[1]?
    let b2 ← m[2]?
    let ra := ParsePitchWheelVals b1 b2
    let relative := if relative != none then some ra.1 else relative
    let absolute := if absolute != none then some ra.2 else absolute
    some (true, channel, relative, absolute)

/-- GetControlChange returns true if (and only if) the message is a
ControlChangeMsg.  Then it also extracts the data to the given arguments. -/
def Message.GetControlChange (m : Message) (channel controller value : Nat) :
    Option (Bool × Nat × Nat × Nat) :=
  if !m.Is ControlChangeMsg then some (false, channel, controller, value)
  else do
    let b0 ← m[0]?
    let channel := (ParseStatus b0).2
    let b1 ← m[1]?
    let b2 ← m[2]?
    let cv := ParseTwoUint7 b1 b2
    some (true, channel, cv.1, cv.2)

/-- GetMTC returns true if (and only if) the message is a MTCMsg.
Then it also extracts the data to the given arguments. -/
def Message.GetMTC (m : Message) (quarterframe : Nat) : Option (Bool × Nat) :=
  if !m.Is MTCMsg then some (false, quarterframe)
  else do
    let b1 ← m[1]?
    some (true, ParseUint7 b1)

/-- GetSongSelect returns true if (and only if) the message is a SongSelectMsg.
Then it also extracts the song number to the given argument. -/
def Message.GetSongSelect (m : Message) (song : Nat) : Option (Bool × Nat) :=
  if !m.Is SongSelectMsg then some (false, song)
  else do
    let b1 ← m[1]?
    some (true, ParseUint7 b1)

/-- GetSPP returns true if (and only if) the message is a SPPMsg.
Then it also extracts the spp to the given argument. -/
def Message.GetSPP (m : Message) (spp : Nat) : Option (Bool × Nat) :=
  if !m.Is SPPMsg then some (false, spp)
  else do
    let b2 ← m[2]?
    let b1 ← m[1]?
    some (true, (ParsePitchWheelVals b2 b1).2)

/-- GetSysEx returns true, if the message is a sysex message.
Then it extracts the inner bytes to the given slice. -/
def Message.GetSysEx (m : Message) (bt : List Nat) : Option (Bool × List Nat) :=
  if m.length < 3 then some (false, bt)
  else if !m.Is SysExMsg then some (false, bt)
  else do
    let first ← m[0]?
    let last ← m[m.length - 1]?
    if first == 0xF0 && last == 0xF7 then
      some (true, (m.take (m.length - 1)).drop 1)
    else some (false, bt)

/-- One hexadecimal digit in upper case, as the verb `X` of package `fmt`
prints it. -/
def hexDigit (n : Nat) : Char :=
  if n < 10 then Char.ofNat (48 + n) else Char.ofNat (55 + n)

/-- The bytes of a slice as `fmt` prints them under `% X`: two upper-case
hexadecimal digits for each byte, separated by one blank. -/
def hexBytes (bs : List Nat) : String :=
  " ".intercalate (bs.map fun b => String.mk [hexDigit (b / 16 % 16), hexDigit (b % 16)])

/-- String represents the Message as a string that contains the Type and its
properties.  The extractors are tried in the order of the `switch`, each on the
variables the previous ones left. -/
def Message.String (m : Message) : Option String := do
  let bf := (getType m).String
  let (is, channel, val1, val2) ← m.GetNoteOn 0 0 0
  if is then
    return bf ++ " channel: " ++ toString channel ++ " key: " ++ toString val1
      ++ " velocity: " ++ toString val2
  let (is, channel, val1, val2) ← m.GetNoteOff channel val1 val2
  if is then
    if val2 > 0 then
      return bf ++ " channel: " ++ toString channel ++ " key: " ++ toString val1
        ++ " velocity: " ++ toString val2
    else
      return bf ++ " channel: " ++ toString channel ++ " key: " ++ toString val1
  let (is, channel, val1, val2) ← m.GetPolyAfterTouch channel val1 val2
  if is then
    return bf ++ " channel: " ++ toString channel ++ " key: " ++ toString val1
      ++ " pressure: " ++ toString val2
  let (is, channel, val1) ← m.GetAfterTouch channel val1
  if is then
    return bf ++ " channel: " ++ toString channel ++ " pressure: " ++ toString val1
  let (is, channel, val1, val2) ← m.GetControlChange channel val1 val2
  if is then
    return bf ++ " channel: " ++ toString channel ++ " controller: " ++ toString val1
      ++ " value: " ++ toString val2
  let (is, channel, val1) ← m.GetProgramChange channel val1
  if is then
    return bf ++ " channel: " ++ toString channel ++ " program: " ++ toString val1
  let (is, channel, pitchrel, pitchabs) ← m.GetPitchBend channel (some 0) (some 0)
  if is then
    return bf ++ " channel: " ++ toString channel ++ " pitch: "
      ++ toString (pitchrel.getD 0) ++ " (" ++ toString (pitchabs.getD 0) ++ ")"
  let (is, val1) ← m.GetMTC val1
  if is then
    return bf ++ " mtc: " ++ toString val1
  let (is, spp) ← m.GetSPP 0
  if is then
    return bf ++ " spp: " ++ toString spp
  let (is, val1) ← m.GetSongSelect val1
  if is then
    return bf ++ " song: " ++ toString val1
  let (is, sysex) ← m.GetSysEx []
  if is then
    return bf ++ " data: " ++ hexBytes sysex
  return bf

/-- Modelled from the spec: the declaration of `Channel` is missing.  A channel
is an integer 0-15 (section 3). -/
abbrev Channel := Fin 16

/-- Modelled from the spec: the 7-bit clamp of the constructors is missing.
The `clamp7` of section 4.1, saturating: a value above 127 becomes 127. -/
def clamp7 (x : Nat) : Nat :=
  if x > 127 then 127 else x

/-- Modelled from the spec: `Channel.NoteOn` is missing.  Status nibble 9 with
the channel in the low nibble, then the clamped key and velocity. -/
def Channel.NoteOn (ch : Channel) (key velocity : Nat) : Message :=
  [0x90 ||| ch.val, clamp7 key, clamp7 velocity]

/-- Modelled from the spec: `Channel.NoteOffVelocity` is missing.  Status
nibble 8, then the clamped key and velocity. -/
def Channel.NoteOffVelocity (ch : Channel) (key velocity : Nat) : Message :=
  [0x80 ||| ch.val, clamp7 key, clamp7 velocity]

/-- Modelled from the spec: `Channel.NoteOff` is missing.  A note off without
a velocity (`83 50 00` in `TestChannelRaw`). -/
def Channel.NoteOff (ch : Channel) (key : Nat) : Message :=
  ch.NoteOffVelocity key 0

/-- Modelled from the spec: `Channel.PolyAftertouch` is missing.  Status
nibble A, then the clamped key and pressure. -/
def Channel.PolyAftertouch (ch : Channel) (key pressure : Nat) : Message :=
  [0xA0 ||| ch.val, clamp7 key, clamp7 pressure]

/-- Modelled from the spec: `Channel.ControlChange` is missing.  Status
nibble B, then the clamped controller and value. -/
def Channel.ControlChange (ch : Channel) (controller value : Nat) : Message :=
  [0xB0 ||| ch.val, clamp7 controller, clamp7 value]

/-- Modelled from the spec: `Channel.ProgramChange` is missing.  Status
nibble C, then the clamped program. -/
def Channel.ProgramChange (ch : Channel) (program : Nat) : Message :=
  [0xC0 ||| ch.val, clamp7 program]

/-- Modelled from the spec: `Channel.Aftertouch` is missing.  Status nibble D,
then the clamped pressure. -/
def Channel.Aftertouch (ch : Channel) (pressure : Nat) : Message :=
  [0xD0 ||| ch.val, clamp7 pressure]

/-- Modelled from the spec: `Channel.Pitchbend` is missing.  The relative value
is saturated to [-8192, 8191], moved to the zero point 8192 and split into its
low and high seven bits (`E4 2C 42` for 300 in `TestChannelRaw`). -/
def Channel.Pitchbend (ch : Channel) (value : Int) : Message :=
  let v := if value > 8191 then 8191 else if value < -8192 then -8192 else value
  let abs := (v + 8192).toNat
  [0xE0 ||| ch.val, abs &&& 0x7F, (abs >>> 7) &&& 0x7F]

/-- The message holds, after its status byte, the data bytes its type declares
(section 4.2): two for the channel types other than ProgramChange and AfterTouch
and for SPP, one for ProgramChange, AfterTouch, MTC and SongSelect, none for the
other types. -/
def Message.hasDataBytes (m : Message) : Bool :=
  match getType m with
  | NoteOffMsg | NoteOnMsg | PolyAfterTouchMsg | ControlChangeMsg | PitchBendMsg
  | SPPMsg => decide (3 ≤ m.length)
  | ProgramChangeMsg | AfterTouchMsg | MTCMsg | SongSelectMsg => decide (2 ≤ m.length)
  | _ => true

/-! ## Running status (packages `midimessage/channel`, `midiwriter`, `midireader`)

Of these packages only a benchmark (`midiwriter/bench_test.go`) and a test
(`midiio/reader_test.go`) are among the sources. -/

namespace channel

/-- Modelled from the spec: `channel.Channel.NoteOn` of package
`midimessage/channel` is missing.  The bytes of a NoteOn message: status nibble 9
with the channel, then the clamped key and velocity (`92 41 5A` in `TestReader`). -/
def NoteOn (ch : Channel) (key velocity : Nat) : Message :=
  [0x90 ||| ch.val, clamp7 key, clamp7 velocity]

/-- Modelled from the spec: `channel.Channel.NoteOff` of package
`midimessage/channel` is missing.  `TestReader` reads the bytes of
Channel2.NoteOff(65) back as `41 00` under the running status 92: the message is
written as a NoteOn with velocity 0 (the note-off of section 4.3). -/
def NoteOff (ch : Channel) (key : Nat) : Message :=
  [0x90 ||| ch.val, clamp7 key, 0]

end channel

/-- Modelled from the spec: the number of data bytes that follow a channel
status byte (section 4.2): one for ProgramChange and AfterTouch, two for the
other channel types. -/
def dataLength (status : Nat) : Nat :=
  match channelType (ParseStatus status).1 with
  | ProgramChangeMsg | AfterTouchMsg => 1
  | _ => 2

/-- A channel message as the running-status engine writes and reads it: a
channel status byte (0x80..0xEF) followed by the data bytes its type declares,
each with its high bit clear. -/
def isChannelMessage (m : Message) : Bool :=
  match m with
  | [] => false
  | status :: data =>
    decide (0x80 ≤ status ∧ status ≤ 0xEF) && decide (data.length = dataLength status)
      && data.all fun d => decide (d < 0x80)

namespace midiwriter

/-- Modelled from the spec: the writer of package `midiwriter` is missing.  Its
state is the running status of section 3, the most recently emitted channel status
byte or none, next to the `NoRunningStatus` option and the bytes written to the
sink so far. -/
structure Writer where
  noRunningStatus : Bool
  runningStatus : Option Nat
  output : List Nat
  deriving DecidableEq, Repr

/-- Modelled from the spec: `midiwriter.New` without options is missing.  A
writer with running status enabled, no status retained and nothing written. -/
def New : Writer :=
  { noRunningStatus := false, runningStatus := none, output := [] }

/-- Modelled from the spec: the option `midiwriter.NoRunningStatus` is missing.
It disables the running status: every message is written in full
(section 4.4). -/
def NoRunningStatus (w : Writer) : Writer :=
  { w with noRunningStatus := true }

/-- Modelled from the spec: `Writer.Write` is missing.  The encoder of section
4.4: before emitting the status byte of a channel message it is compared to the
last emitted status; if equal, only the data bytes are emitted; otherwise the
whole message is emitted and the status retained.  A system real-time message
(0xF8 and above) leaves the retained status alone, every other message clears it
(section 3). -/
def Writer.Write (w : Writer) (msg : Message) : Writer :=
  match msg with
  | [] => w
  | status :: data =>
    if 0x80 ≤ status ∧ status ≤ 0xEF then
      if !w.noRunningStatus && w.runningStatus == some status then
        { w with output := w.output ++ data }
      else
        { w with runningStatus := some status, output := w.output ++ status :: data }
    else if 0xF8 ≤ status then
      { w with output := w.output ++ status :: data }
    else
      { w with runningStatus := none, output := w.output ++ status :: data }

end midiwriter

namespace midireader

/-- Modelled from the spec: the failures of the decoder of section 4.4, a data
byte with no retained status to apply it to and an input that ends inside a
message. -/
inductive ReadError
  | UnexpectedDataByte
  | TruncatedInput
  deriving DecidableEq, Repr

/-- The next `n` bytes of the input and the input after them, or a truncation. -/
def takeBytes (n : Nat) (src : List Nat) : Except ReadError (List Nat × List Nat) :=
  if n ≤ src.length then .ok (src.take n, src.drop n) else .error .TruncatedInput

/-- The bytes of a sysex message up to and including the terminating 0xF7, and
the input after them. -/
def takeSysEx (src : List Nat) : Except ReadError (List Nat × List Nat) :=
  match src with
  | [] => .error .TruncatedInput
  | b :: rest =>
    if b == 0xF7 then .ok ([b], rest)
    else
      match takeSysEx rest with
      | .ok (body, after) => .ok (b :: body, after)
      | .error e => .error e

/-- Modelled from the spec: reading one message in package `midireader` is
missing.  The decoder of section 4.4, on an input that is not empty: a byte with
its high bit unset is a data byte of the retained channel status, which is
prepended to it, and as many further data bytes are consumed as that status
declares; a channel status byte becomes the retained status and is followed by
its data bytes; a system real-time byte passes through and leaves the retained
status alone; a sysex or system common message passes through and clears it
(section 3).  The result is the message, the retained status and the rest of the
input.  Real-time bytes between the data bytes of a message are not treated. -/
def readMessage (runningStatus : Option Nat) (first : Nat) (rest : List Nat) :
    Except ReadError (Message × Option Nat × List Nat) :=
  if first < 0x80 then
    match runningStatus with
    | none => .error .UnexpectedDataByte
    | some status =>
      match takeBytes (dataLength status - 1) rest with
      | .ok (data, after) => .ok (status :: first :: data, some status, after)
      | .error e => .error e
  else if first ≤ 0xEF then
    match takeBytes (dataLength first) rest with
    | .ok (data, after) => .ok (first :: data, some first, after)
    | .error e => .error e
  else if 0xF8 ≤ first then .ok ([first], runningStatus, rest)
  else if first == 0xF0 then
    match takeSysEx rest with
    | .ok (body, after) => .ok (first :: body, none, after)
    | .error e => .error e
  else
    match takeBytes (if first == 0xF2 then 2 else if first == 0xF1 ∨ first == 0xF3 then 1 else 0)
        rest with
    | .ok (data, after) => .ok (first :: data, none, after)
    | .error e => .error e

/-- The messages of an input, read one after the other until it is exhausted;
`fuel` bounds the number of messages. -/
def readAll (fuel : Nat) (runningStatus : Option Nat) (src : List Nat) :
    Except ReadError (List Message) :=
  match src with
  | [] => .ok []
  | first :: rest =>
    match fuel with
    | 0 => .error .TruncatedInput
    | fuel + 1 =>
      match readMessage runningStatus first rest with
      | .error e => .error e
      | .ok (msg, status, after) =>
        match readAll fuel status after with
        | .ok msgs => .ok (msg :: msgs)
        | .error e => .error e

/-- All the messages of an input, read from the start of a stream, where no
status is retained; every message takes at least one byte, so the length of the
input is fuel enough. -/
def ReadAll (src : List Nat) : Except ReadError (List Message) :=
  readAll src.length none src

end midireader

/-! ## Reading SMF files (packages `mid` and `smf/smfreader`) -/

namespace smfreader

/-- Modelled from the spec: the declaration of the reader states is missing.
The states of the chunk reader of section 4.5. -/
inductive State
  | stateExpectHeader
  | stateExpectChunk
  | stateExpectTrackEvent
  | stateDone
  deriving DecidableEq, Repr

/-- Modelled from the spec: the declaration of `reader` is missing.  The fields
the options of `options.go` assign to; a logger is nil (`none`) or a handle. -/
structure reader where
  logger : Option Nat
  readNoteOffPedantic : Bool
  failOnUnknownChunks : Bool
  NumTracks : Nat
  state : State
  headerIsRead : Bool
  deriving DecidableEq, Repr

/-- The Go type `Option func(*reader)`: an option maps the reader before it to the
reader after it. -/
abbrev ReaderOption := reader → reader

/-- Debug sets the logger of the reader. -/
def Debug (l : Nat) : ReaderOption :=
  fun r => { r with logger := some l }

/-- ReadNoteOffPedantic lets the reader differenciate between "fake" noteoff
messages and "real" noteoff messages. -/
def ReadNoteOffPedantic : ReaderOption :=
  fun rd => { rd with readNoteOffPedantic := true }

/-- FailOnUnknownChunks makes unknown chunks fatal. -/
def FailOnUnknownChunks : ReaderOption :=
  fun r => { r with failOnUnknownChunks := true }

/-- PostHeader tells the reader that next read is after the smf header;
remainingtracks are the number of tracks that are going to be parsed (must be
> 0).  The panic of the constructor is the result `none`. -/
def PostHeader (remainingtracks : Nat) : Option ReaderOption :=
  if remainingtracks == 0 then none
  else some fun r =>
    { r with NumTracks := remainingtracks, state := State.stateExpectChunk,
             headerIsRead := true }

/-- InsideTrack tells the reader that next read is inside a track (after the
track header); remainingtracks are the number of tracks that are going to be
parsed (must be > 0).  The panic of the constructor is the result `none`. -/
def InsideTrack (remainingtracks : Nat) : Option ReaderOption :=
  if remainingtracks == 0 then none
  else some fun r =>
    { r with NumTracks := remainingtracks, state := State.stateExpectTrackEvent,
             headerIsRead := true }

end smfreader

namespace mid

/-- The Go error values `reader_smf.go` tells apart: `io.EOF`,
`smf.ErrFinished` and any other error, named by a code; the nil error is
`none`. -/
inductive Error
  | EOF
  | ErrFinished
  | other (code : Nat)
  deriving DecidableEq, Repr

/-- Modelled from the spec: the declaration of `smf.TimeFormat` is missing.  The
time division of section 3: metric ticks per quarter note or SMPTE frames and
sub-frame ticks. -/
inductive TimeFormat
  | MetricTicks (ticks : Nat)
  | TimeCode (framesPerSecond subFrames : Nat)
  deriving DecidableEq, Repr

/-- Modelled from the spec: the declaration of `smf.Header` is missing.  The
header of section 3: format, declared track count and time division. -/
structure Header where
  Format : Nat
  NumTracks : Nat
  TimeFormat : TimeFormat
  deriving DecidableEq, Repr

/-- Modelled from the spec: the declaration of `Position` is missing.  The
position of section 3: track index, absolute ticks and the original delta. -/
structure Position where
  Track : Nat
  AbsoluteTicks : Nat
  DeltaTicks : Nat
  deriving DecidableEq, Repr

/-- Modelled from the spec: the declaration of `Reader` is missing.  The fields
`reader_smf.go` assigns to; the callback `SMFHeader` is nil or attached
(`hasSMFHeader`), and `smfHeaderCalls` lists the headers it was called with, the
latest first. -/
structure Reader where
  errSMF : Option Error
  pos : Position
  header : Header
  resolution : Nat
  hasSMFHeader : Bool
  smfHeaderCalls : List Header
  deriving DecidableEq, Repr

/-- The assignments `r.errSMF = nil; r.pos = &Position{}; r.reset()` that open
the three read functions; `reset` is missing and taken to leave the fields
modelled here alone. -/
def Reader.start (r : Reader) : Reader :=
  { r with errSMF := none, pos := { Track := 0, AbsoluteTicks := 0, DeltaTicks := 0 } }

/-- The method `setHeader`: stores the header, takes a metric time format as
the resolution and calls `SMFHeader` when it is attached. -/
def Reader.setHeader (r : Reader) (hd : Header) : Reader :=
  let r := { r with header := hd }
  let r :=
    match r.header.TimeFormat with
    | TimeFormat.MetricTicks metric => { r with resolution := metric }
    | _ => r
  if r.hasSMFHeader then { r with smfHeaderCalls := r.header :: r.smfHeaderCalls } else r

/-- The method `readSMF`: `err := r.dispatch(rd)`, and the error is kept in
`errSMF` unless it is `io.EOF`.  `dispatch` is missing: the error in which it
ends is the argument `err`. -/
def Reader.readSMF (r : Reader) (err : Option Error) : Reader :=
  if err != some Error.EOF then { r with errSMF := err } else r

/-- ReadSMF reads midi messages from src until an error or io.EOF happens; if
the read content was a valid midi file, nil is returned.  `smfreader.New`,
`ReadHeader` and `Header` are missing: `headerErr` is the error `rd.ReadHeader()`
returns, `hd` the header `rd.Header()` returns, `dispatchErr` the error in which
dispatching ends. -/
def Reader.ReadSMF (r : Reader) (headerErr : Option Error) (hd : Header)
    (dispatchErr : Option Error) : Reader × Option Error :=
  let r := r.start
  if headerErr != none then (r, headerErr)
  else
    let r := r.setHeader hd
    let r := r.readSMF dispatchErr
    if r.errSMF == some Error.ErrFinished then (r, none)
    else (r, r.errSMF)

/-- ReadSMFFile open, reads and closes a complete SMF file; if the read content
was a valid midi file, nil is returned.  `smfreader.ReadFile` is missing:
`fileErr` is the error it returns and `dispatched` tells whether it called the
callback `r.readSMF` (`none` if not) and the error in which dispatching ended. -/
def Reader.ReadSMFFile (r : Reader) (fileErr : Option Error)
    (dispatched : Option (Option Error)) : Reader × Option Error :=
  let r := r.start
  let r :=
    match dispatched with
    | none => r
    | some dispatchErr => r.readSMF dispatchErr
  if fileErr != none && fileErr != some Error.ErrFinished then (r, fileErr)
  else if r.errSMF == some Error.ErrFinished then (r, none)
  else (r, none)

end mid

namespace mid

/-- Modelled from the spec: dispatching the events of one track (`Reader.dispatch`
and package `smfreader`) is missing.  Section 4.5: each decoded (delta, message)
pair is emitted with Position = (trackIndex, accumulatedTicks += delta,
originalDelta); `ticks` is the accumulator of the track before the event. -/
def emitTrack (track ticks : Nat) (events : List (Nat × Message)) :
    List (Position × Message) :=
  match events with
  | [] => []
  | (delta, msg) :: rest =>
    ({ Track := track, AbsoluteTicks := ticks + delta, DeltaTicks := delta }, msg)
      :: emitTrack track (ticks + delta) rest

/-- Modelled from the spec: dispatching the tracks of a file is missing.  Section
4.5: on every `MTrk` chunk the absolute-tick accumulator is reset to zero; the
tracks are numbered in the order of the file, `track` being the number of the
first one. -/
def emitTracks (track : Nat) (tracks : List (List (Nat × Message))) :
    List (List (Position × Message)) :=
  match tracks with
  | [] => []
  | events :: rest => emitTrack track 0 events :: emitTracks (track + 1) rest

/-- The events emitted while reading a file, track by track, and as the one
sequence in which they are emitted. -/
def emitFile (tracks : List (List (Nat × Message))) : List (Position × Message) :=
  (emitTracks 0 tracks).flatten

end mid

/-! ## Variable-length quantities -/

namespace vlq

/-- Modelled from the spec: the failure of `decodeVLQ` (section 4.1), a
continuation chain that runs past the end of the available bytes. -/
inductive DecodeError
  | TruncatedInput
  deriving DecidableEq, Repr

/-- The 7-bit groups of `n` above the lowest one, most significant first, each
with its continuation bit set, put in front of `acc`; `fuel` bounds the number of
groups. -/
def encodeGroups (fuel n : Nat) (acc : List Nat) : List Nat :=
  match fuel with
  | 0 => acc
  | fuel + 1 =>
    if n = 0 then acc else encodeGroups fuel (n / 128) ((n % 128 ||| 0x80) :: acc)

/-- Modelled from the spec: `encodeVLQ` is missing.  Section 4.1: the minimal
big-endian 7-bit-group encoding, the continuation bit set on all but the last
byte; a value of 0 encodes as a single zero byte.  A value has fewer groups than
its own size, so that `n` is fuel enough. -/
def encodeVLQ (n : Nat) : List Nat :=
  encodeGroups n (n / 128) [n % 128]

/-- The value and the number of bytes read so far, continued over the bytes of
the input up to the first one without continuation bit. -/
def decodeGroups (value consumed : Nat) (bytes : List Nat) :
    Except DecodeError (Nat × Nat) :=
  match bytes with
  | [] => .error .TruncatedInput
  | b :: rest =>
    if b &&& 0x80 = 0 then .ok (value * 128 + (b &&& 0x7F), consumed + 1)
    else decodeGroups (value * 128 + (b &&& 0x7F)) (consumed + 1) rest

/-- Modelled from the spec: `decodeVLQ` is missing.  Section 4.1:
`decodeVLQ(bytes) -> (value, bytesConsumed)`, which fails with `TruncatedInput`
if the continuation chain runs past the end of the available bytes. -/
def decodeVLQ (bytes : List Nat) : Except DecodeError (Nat × Nat) :=
  decodeGroups 0 0 bytes

end vlq

/-! ## Playable messages and SMF messages (`v2/message.go`, `v2/smf/message.go`) -/

/-- Modelled from the spec: the numeric values of the `Type` constants are
missing.  The place of a type in the ordered enumeration of section 3, of which
`UnknownMsg` is the first. -/
def MsgType.rank (t : MsgType) : Nat :=
  t.toCtorIdx

/-- Modelled from the spec: the constant `firstMetaMsg` is missing.  The meta
types, the fifth family of section 3, follow all the types of package midi. -/
def firstMetaMsg : Nat :=
  22

/-- IsPlayable returns, if the message can be send to an instrument. -/
def Message.IsPlayable (m : Message) : Bool :=
  if (getType m).rank ≤ UnknownMsg.rank then false
  else decide ((getType m).rank < firstMetaMsg)

namespace smf

/-- Modelled from the spec: the declaration of the meta types is missing.  The
meta family of section 3: the types `message.go` names (the nine text types),
those `TestReadSMF0` prints (time signature, tempo, end of track) and the other
meta events of a standard MIDI file. -/
inductive MetaType
  | MetaSeqNumber
  | MetaText
  | MetaCopyright
  | MetaTrackName
  | MetaInstrument
  | MetaLyric
  | MetaMarker
  | MetaCuepoint
  | MetaProgramName
  | MetaDevice
  | MetaChannel
  | MetaPort
  | MetaEndOfTrack
  | MetaTempo
  | MetaSMPTE
  | MetaTimeSig
  | MetaKeySig
  | MetaSeqData
  | MetaUndefined
  deriving DecidableEq, Repr

/-- A value of the Go type `midi.Type` as package smf sees it: a type of package
midi or a meta type. -/
inductive MidiType
  | midi (t : MsgType)
  | meta (t : MetaType)
  deriving DecidableEq, Repr

/-- Modelled from the spec: `Type.String` is missing for the meta types.  The
name of a meta type, as `TestReadSMF0` prints it. -/
def MetaType.String (t : MetaType) : String :=
  match t with
  | .MetaSeqNumber => "MetaSeqNumberMsg"
  | .MetaText => "MetaTextMsg"
  | .MetaCopyright => "MetaCopyrightMsg"
  | .MetaTrackName => "MetaTrackNameMsg"
  | .MetaInstrument => "MetaInstrumentMsg"
  | .MetaLyric => "MetaLyricMsg"
  | .MetaMarker => "MetaMarkerMsg"
  | .MetaCuepoint => "MetaCuepointMsg"
  | .MetaProgramName => "MetaProgramNameMsg"
  | .MetaDevice => "MetaDeviceMsg"
  | .MetaChannel => "MetaChannelMsg"
  | .MetaPort => "MetaPortMsg"
  | .MetaEndOfTrack => "MetaEndOfTrackMsg"
  | .MetaTempo => "MetaTempoMsg"
  | .MetaSMPTE => "MetaSMPTEMsg"
  | .MetaTimeSig => "MetaTimeSigMsg"
  | .MetaKeySig => "MetaKeySigMsg"
  | .MetaSeqData => "MetaSeqDataMsg"
  | .MetaUndefined => "MetaUndefinedMsg"

/-- The name of a type. -/
def MidiType.String (t : MidiType) : String :=
  match t with
  | .midi t => t.String
  | .meta t => t.String

/-- Modelled from the spec: the numeric values of the `Type` constants are
missing.  The place of a type in the ordered enumeration: the meta types follow
`firstMetaMsg`. -/
def MidiType.rank (t : MidiType) : Nat :=
  match t with
  | .midi t => t.rank
  | .meta t => firstMetaMsg + t.toCtorIdx

/-- Modelled from the spec: `Type.IsPlayable` is missing.  The test of
`Message.IsPlayable` of package midi on the type: a type is playable when it lies
after `UnknownMsg` and before `firstMetaMsg`. -/
def MidiType.IsPlayable (t : MidiType) : Bool :=
  if t.rank ≤ UnknownMsg.rank then false
  else decide (t.rank < firstMetaMsg)

/-- Modelled from the spec: `IsMeta` is missing.  Section 3: a meta message is
distinguished by the reserved status byte 0xFF. -/
def IsMeta (msg : Message) : Bool :=
  msg.head? == some 0xFF

/-- The functions of package smf that `message.go` calls and that are missing,
taken as they are: the table `GetMetaType` from the byte after 0xFF to the meta
type; `ScanTempo`, which yields the tempo when the message matches, here as
`fmt` prints it under `%0.2f`; `ScanMeter`, which yields numerator and
denominator when the message matches; and `text`, here as `fmt` prints the text
under `%q`. -/
structure MetaFuncs where
  GetMetaType : Nat → MetaType
  ScanTempo : Message → Option String
  ScanMeter : Message → Option (Nat × Nat)
  text : Message → String

/-- GetType: the meta type of the second byte for a meta message, the type of
package midi otherwise. -/
def GetType (f : MetaFuncs) (msg : Message) : Option MidiType :=
  if IsMeta msg then do
    let b1 ← msg[1]?
    some (.meta (f.GetMetaType b1))
  else some (.midi (getType msg))

/-- IsPlayable of an SMF message: `m.Type().IsPlayable()`. -/
def Message.IsPlayable (f : MetaFuncs) (m : Message) : Option Bool :=
  (GetType f m).map MidiType.IsPlayable

/-- The types for which String prints the text of the message. -/
def isTextType (t : MidiType) : Bool :=
  match t with
  | .meta .MetaLyric | .meta .MetaMarker | .meta .MetaCopyright | .meta .MetaText
  | .meta .MetaCuepoint | .meta .MetaDevice | .meta .MetaInstrument
  | .meta .MetaProgramName | .meta .MetaTrackName => true
  | _ => false

/-- String represents the Message as a string that contains the MsgType and its
properties: for a meta message the type name, followed by the tempo, the meter
or, for the text types, the text; for every other message the String of package
midi. -/
def Message.String (f : MetaFuncs) (m : Message) : Option String :=
  if IsMeta m then do
    let t ← GetType f m
    let bf := t.String
    match f.ScanTempo m with
    | some bpm => some (bf ++ " bpm: " ++ bpm)
    | none =>
      match f.ScanMeter m with
      | some (val1, val2) => some (bf ++ " meter: " ++ toString val1 ++ "/" ++ toString val2)
      | none =>
        if isTextType t then some (bf ++ " text: " ++ f.text m)
        else some bf
  else Midi.Message.String m

/-- The meta functions on the three meta events of the fixture of section 8
(time signature FF 58, tempo FF 51, end of track FF 2F), by which the examples
are evaluated. -/
def fixtureFuncs : MetaFuncs where
  GetMetaType := fun b =>
    match b with
    | 0x2F => .MetaEndOfTrack
    | 0x51 => .MetaTempo
    | 0x58 => .MetaTimeSig
    | _ => .MetaUndefined
  ScanTempo := fun m =>
    match m with
    | [0xFF, 0x51, 0x03, 0x07, 0xA1, 0x20] => some "120.00"
    | _ => none
  ScanMeter := fun m =>
    match m with
    | 0xFF :: 0x58 :: 0x04 :: numerator :: exponent :: _ => some (numerator, 2 ^ exponent)
    | _ => none
  text := fun _ => ""

end smf

namespace mid

/-- ReadSMFFileHeader reads just the header of a SMF file.  `os.Open` and package
`smfreader` are missing: `openErr` is the error of `os.Open(file)`, `headerErr`
the error `rd.ReadHeader()` returns and `hd` the header `rd.Header()` returns.
The returned header is `none` for the zero value `smf.Header{}`. -/
def Reader.ReadSMFFileHeader (r : Reader) (openErr headerErr : Option Error)
    (hd : Header) : Reader × Option Header × Option Error :=
  let r := r.start
  if openErr != none then (r, none, openErr)
  else
    let r := r.setHeader hd
    if headerErr != none && headerErr != some Error.ErrFinished then (r, some hd, headerErr)
    else (r, some hd, none)

end mid

/-! ## Sending to a port (package `portmididrv`, file `out.go`) -/

namespace portmididrv

/-- The errors `Send` returns: `drivers.ErrPortClosed` and the error it formats
around a failure of the stream (`could not send message to MIDI out ...`), which
names the number and the name of the port and the failure, here by a code. -/
inductive SendError
  | ErrPortClosed
  | couldNotSend (number : Nat) (name : String) (err : Nat)
  deriving DecidableEq, Repr

/-- The port `out`: its number, its name and its stream, which is nil (`none`)
when the port is closed.  `portmidi.Stream` is missing: an open stream is the
list of the triples `WriteShort` was called with, the latest last. -/
structure out where
  id : Nat
  name : String
  stream : Option (List (Nat × Nat × Nat))
  deriving DecidableEq, Repr

/-- IsOpen returns, wether the port is open. -/
def out.IsOpen (o : out) : Bool :=
  o.stream != none

/-- Send writes a MIDI message to the outut port; if the output port is closed,
it returns ErrPortClosed.  `writeErr` is the error `o.stream.WriteShort` returns
(`none` for nil); an index out of range is the result `none`. -/
def out.Send (o : out) (b : List Nat) (writeErr : Option Nat) :
    Option (out × Option SendError) :=
  match o.stream with
  | none => some (o, some SendError.ErrPortClosed)
  | some written => do
    let first ← b[0]?
    let second := if b.length > 1 then b[1]?.getD 0 else 0
    let last := if b.length > 2 then b[2]?.getD 0 else 0
    let o := { o with stream := some (written ++ [(first, second, last)]) }
    match writeErr with
    | some err => some (o, some (SendError.couldNotSend o.id o.name err))
    | none => some (o, none)

end portmididrv

/-! ## Arithmetic of the byte helpers -/

theorem and_7F_eq_mod (b : Nat) : b &&& 0x7F = b % 128 :=
  Nat.and_pow_two_sub_one_eq_mod b 7

theorem and_0F_eq_mod (b : Nat) : b &&& 0x0F = b % 16 :=
  Nat.and_pow_two_sub_one_eq_mod b 4

theorem and_7F_of_le {b : Nat} (h : b ≤ 127) : b &&& 0x7F = b := by
  rw [and_7F_eq_mod]; omega

theorem clamp7_le (x : Nat) : clamp7 x ≤ 127 := by
  unfold clamp7; split <;> omega

theorem clamp7_of_le {x : Nat} (h : x ≤ 127) : clamp7 x = x := by
  unfold clamp7; split <;> omega

theorem clamp7_of_gt {x : Nat} (h : 127 < x) : clamp7 x = 127 := by
  unfold clamp7; split <;> omega

theorem ParsePitchWheelVals_abs (b1 b2 : Nat) :
    (ParsePitchWheelVals b1 b2).2 = (b2 &&& 0x7F) * 128 + (b1 &&& 0x7F) := by
  have h : b1 &&& 0x7F < 2 ^ 7 := Nat.and_lt_two_pow b1 (by decide)
  have e := Nat.mul_add_lt_is_or h (b2 &&& 0x7F)
  simp only [ParsePitchWheelVals, Nat.shiftLeft_eq]
  rw [Nat.mul_comm (b2 &&& 0x7F) (2 ^ 7), ← e]

theorem getType_cons (s : Nat) (rest : List Nat) : getType (s :: rest) = getType [s] := rfl

theorem getType_status (ch : Channel) :
    getType [0x80 ||| ch.val] = NoteOffMsg ∧ getType [0x90 ||| ch.val] = NoteOnMsg ∧
    getType [0xA0 ||| ch.val] = PolyAfterTouchMsg ∧
    getType [0xB0 ||| ch.val] = ControlChangeMsg ∧
    getType [0xC0 ||| ch.val] = ProgramChangeMsg ∧
    getType [0xD0 ||| ch.val] = AfterTouchMsg ∧ getType [0xE0 ||| ch.val] = PitchBendMsg := by
  revert ch; decide

theorem status_channel (ch : Channel) :
    (0x80 ||| ch.val) &&& 0x0F = ch.val ∧ (0x90 ||| ch.val) &&& 0x0F = ch.val ∧
    (0xA0 ||| ch.val) &&& 0x0F = ch.val ∧ (0xB0 ||| ch.val) &&& 0x0F = ch.val ∧
    (0xC0 ||| ch.val) &&& 0x0F = ch.val ∧ (0xD0 ||| ch.val) &&& 0x0F = ch.val ∧
    (0xE0 ||| ch.val) &&& 0x0F = ch.val := by
  revert ch; decide

theorem Is_cons (s : Nat) (rest : List Nat) (t : MsgType) :
    Message.Is (s :: rest) t = Message.Is [s] t := rfl

theorem Is_status (ch : Channel) :
    Message.Is [0x80 ||| ch.val] NoteOffMsg = true ∧ Message.Is [0x90 ||| ch.val] NoteOnMsg = true ∧
    Message.Is [0xA0 ||| ch.val] PolyAfterTouchMsg = true ∧
    Message.Is [0xB0 ||| ch.val] ControlChangeMsg = true ∧
    Message.Is [0xC0 ||| ch.val] ProgramChangeMsg = true ∧
    Message.Is [0xD0 ||| ch.val] AfterTouchMsg = true ∧
    Message.Is [0xE0 ||| ch.val] PitchBendMsg = true := by
  revert ch; decide

/-- C1: for every channel c in 0..15 and every key k and velocity v in 0..127,
GetNoteOn applied to Channel(c).NoteOn(k, v) returns true and yields exactly
channel c, key k and velocity v, whatever the output arguments held before. -/
theorem noteOn_roundtrip (c : Channel) (k v : Nat) (hk : k ≤ 127) (hv : v ≤ 127)
    (c0 k0 v0 : Nat) :
    (c.NoteOn k v).GetNoteOn c0 k0 v0 = some (true, c.val, k, v) := by
  simp [Channel.NoteOn, Message.GetNoteOn, Is_cons, (Is_status c).2.1, ParseStatus,
    ParseTwoUint7, (status_channel c).2.1, clamp7_of_le hk, clamp7_of_le hv,
    and_7F_of_le hk, and_7F_of_le hv]

/-- The round trip of C1 at the message of `TestChannelString`:
Channel(2).NoteOn(100, 80). -/
theorem noteOn_roundtrip_witness :
    (100 : Nat) ≤ 127 ∧ (80 : Nat) ≤ 127 ∧
    (Channel.NoteOn 2 100 80).GetNoteOn 0 0 0 = some (true, 2, 100, 80) :=
  ⟨by decide, by decide, noteOn_roundtrip 2 100 80 (by decide) (by decide) 0 0 0⟩

/-- C2: every channel-message constructor saturates its 7-bit data arguments
and never fails: the value extracted from the built message is 127 for every
argument above 127 (and the argument itself otherwise), for NoteOn, NoteOff,
NoteOffVelocity, PolyAftertouch, Aftertouch, ControlChange and ProgramChange. -/
theorem constructors_saturate (c : Channel) (x y o1 o2 o3 : Nat) :
    (c.NoteOn x y).GetNoteOn o1 o2 o3
      = some (true, c.val, if 127 < x then 127 else x, if 127 < y then 127 else y) ∧
    (c.NoteOff x).GetNoteOff o1 o2 o3
      = some (true, c.val, if 127 < x then 127 else x, 0) ∧
    (c.NoteOffVelocity x y).GetNoteOff o1 o2 o3
      = some (true, c.val, if 127 < x then 127 else x, if 127 < y then 127 else y) ∧
    (c.PolyAftertouch x y).GetPolyAfterTouch o1 o2 o3
      = some (true, c.val, if 127 < x then 127 else x, if 127 < y then 127 else y) ∧
    (c.Aftertouch x).GetAfterTouch o1 o2
      = some (true, c.val, if 127 < x then 127 else x) ∧
    (c.ControlChange x y).GetControlChange o1 o2 o3
      = some (true, c.val, if 127 < x then 127 else x, if 127 < y then 127 else y) ∧
    (c.ProgramChange x).GetProgramChange o1 o2
      = some (true, c.val, if 127 < x then 127 else x) := by
  have hx := and_7F_of_le (clamp7_le x)
  have hy := and_7F_of_le (clamp7_le y)
  have h0 := and_7F_of_le (clamp7_le 0)
  obtain ⟨i8, i9, iA, iB, iC, iD, _⟩ := Is_status c
  obtain ⟨s8, s9, sA, sB, sC, sD, _⟩ := status_channel c
  have cx : clamp7 x = if 127 < x then 127 else x := rfl
  have cy : clamp7 y = if 127 < y then 127 else y := rfl
  have c0 : clamp7 0 = 0 := rfl
  rw [← cx, ← cy]
  refine ⟨?_, ?_, ?_, ?_, ?_, ?_, ?_⟩
  · simp [Channel.NoteOn, Message.GetNoteOn, Is_cons, i9, ParseStatus, ParseTwoUint7, s9, hx, hy]
  · simp [Channel.NoteOff, Channel.NoteOffVelocity, Message.GetNoteOff, Is_cons, i8,
      ParseStatus, ParseTwoUint7, s8, hx, c0]
  · simp [Channel.NoteOffVelocity, Message.GetNoteOff, Is_cons, i8, ParseStatus,
      ParseTwoUint7, s8, hx, hy]
  · simp [Channel.PolyAftertouch, Message.GetPolyAfterTouch, Is_cons, iA, ParseStatus,
      ParseTwoUint7, sA, hx, hy]
  · simp [Channel.Aftertouch, Message.GetAfterTouch, Is_cons, iD, ParseStatus, ParseUint7, sD, hx]
  · simp [Channel.ControlChange, Message.GetControlChange, Is_cons, iB, ParseStatus,
      ParseTwoUint7, sB, hx, hy]
  · simp [Channel.ProgramChange, Message.GetProgramChange, Is_cons, iC, ParseStatus,
      ParseUint7, sC, hx]

theorem noteOff_not_noteOn (m : Message) (h : m.Is NoteOffMsg = true) :
    m.Is NoteOnMsg = false := by
  unfold Message.Is at *
  generalize getType m = t at *
  cases t <;> first | rfl | exact absurd h (by decide)

/-- GetNoteOn apart from truncated messages: when m is not a NoteOnMsg it
returns false, leaving its arguments as they were, and when m is a NoteOnMsg
holding the bytes m[0], m[1] and m[2] it returns true with
channel = m[0] & 0x0F, key = m[1] & 0x7F and velocity = m[2] & 0x7F. -/
theorem getNoteOn_spec (m : Message) (channel key velocity : Nat) :
    (m.Is NoteOnMsg = false →
      m.GetNoteOn channel key velocity = some (false, channel, key, velocity)) ∧
    (∀ b0 b1 b2, m[0]? = some b0 → m[1]? = some b1 → m[2]? = some b2 →
      m.Is NoteOnMsg = true →
      m.GetNoteOn channel key velocity = some (true, b0 &&& 0x0F, b1 &&& 0x7F, b2 &&& 0x7F)) := by
  constructor
  · intro h
    simp [Message.GetNoteOn, h]
  · intro b0 b1 b2 h0 h1 h2 h
    simp [Message.GetNoteOn, h, h0, h1, h2, ParseStatus, ParseTwoUint7]

/-- GetNoteOn at the complete message Channel(2).NoteOn(100, 80), the bytes
92 64 50, where GetNoteOn returns true with channel 2, key 100 and velocity 80,
and at the NoteOff message 83 50 00, where it returns false. -/
theorem getNoteOn_spec_witness :
    Message.GetNoteOn [0x92, 0x64, 0x50] 0 0 0 = some (true, 2, 100, 80) ∧
    Message.GetNoteOn [0x83, 0x50, 0x00] 9 8 7 = some (false, 9, 8, 7) :=
  ⟨(getNoteOn_spec [0x92, 0x64, 0x50] 0 0 0).2 0x92 0x64 0x50 rfl rfl rfl (by decide),
   (getNoteOn_spec [0x83, 0x50, 0x00] 9 8 7).1 (by decide)⟩

/-- GetNoteEnd apart from truncated messages: when m is neither a NoteOnMsg nor
a NoteOffMsg it returns false, and when m holds the bytes m[0], m[1] and m[2] it
returns true exactly if m is a NoteOffMsg or a NoteOnMsg
with m[2] & 0x7F = 0, then yielding channel = m[0] & 0x0F and key = m[1] & 0x7F. -/
theorem getNoteEnd_spec (m : Message) (channel key : Nat) :
    (m.Is NoteOnMsg = false → m.Is NoteOffMsg = false →
      m.GetNoteEnd channel key = some (false, channel, key)) ∧
    (∀ b0 b1 b2, m[0]? = some b0 → m[1]? = some b1 → m[2]? = some b2 →
      ∃ r, m.GetNoteEnd channel key = some r ∧
        (r.1 = true ↔
          (m.Is NoteOffMsg = true ∨ (m.Is NoteOnMsg = true ∧ b2 &&& 0x7F = 0))) ∧
        (r.1 = true → r.2 = (b0 &&& 0x0F, b1 &&& 0x7F))) := by
  constructor
  · intro hon hoff
    simp [Message.GetNoteEnd, hon, hoff]
  · intro b0 b1 b2 h0 h1 h2
    unfold Message.GetNoteEnd
    cases hon : m.Is NoteOnMsg <;> cases hoff : m.Is NoteOffMsg <;>
      simp [h0, h1, h2, ParseStatus, ParseTwoUint7]

/-- GetNoteEnd at a complete zero-velocity NoteOn, the bytes 90 3D 00, where
GetNoteEnd returns true with channel 0 and key 61, and at the control change
B8 07 6E, where it returns false. -/
theorem getNoteEnd_spec_witness :
    Message.GetNoteEnd [0x90, 0x3D, 0x00] 7 7 = some (true, 0, 61) ∧
    Message.GetNoteEnd [0xB8, 0x07, 0x6E] 7 7 = some (false, 7, 7) := by
  obtain ⟨⟨is, out⟩, hr, hiff, hout⟩ :=
    (getNoteEnd_spec [0x90, 0x3D, 0x00] 7 7).2 0x90 0x3D 0x00 rfl rfl rfl
  have h1 : is = true := hiff.2 (Or.inr ⟨by decide, by decide⟩)
  have h2 := hout h1
  subst h1
  refine ⟨?_, (getNoteEnd_spec [0xB8, 0x07, 0x6E] 7 7).1 (by decide) (by decide)⟩
  rw [hr]; simp only [] at h2; rw [h2]; rfl

/-- C5: for every message m, GetNoteStart returns true if and only if m is a
NoteOnMsg whose velocity (m[2] & 0x7F) is greater than 0: when m is not a
NoteOnMsg, so for every NoteOff, it returns false, and when m holds the bytes
m[0], m[1] and m[2] it returns true exactly if m is a NoteOnMsg with
m[2] & 0x7F > 0, hence false for every zero-velocity NoteOn. -/
theorem getNoteStart_spec (m : Message) (channel key velocity : Nat) :
    (m.Is NoteOnMsg = false →
      m.GetNoteStart channel key velocity = some (false, channel, key, velocity)) ∧
    (m.Is NoteOffMsg = true →
      m.GetNoteStart channel key velocity = some (false, channel, key, velocity)) ∧
    (∀ b0 b1 b2, m[0]? = some b0 → m[1]? = some b1 → m[2]? = some b2 →
      ∃ r, m.GetNoteStart channel key velocity = some r ∧
        (r.1 = true ↔ (m.Is NoteOnMsg = true ∧ 0 < b2 &&& 0x7F)) ∧
        (m.Is NoteOnMsg = true → b2 &&& 0x7F = 0 → r.1 = false)) := by
  have hnot : m.Is NoteOnMsg = false →
      m.GetNoteStart channel key velocity = some (false, channel, key, velocity) := by
    intro h
    simp [Message.GetNoteStart, h]
  refine ⟨hnot, fun hoff => hnot (noteOff_not_noteOn m hoff), ?_⟩
  intro b0 b1 b2 h0 h1 h2
  unfold Message.GetNoteStart
  cases hon : m.Is NoteOnMsg
  · simp
  · by_cases hv : b2 &&& 0x7F = 0
    · simp [h0, h1, h2, ParseStatus, ParseTwoUint7, hv]
    · simp [h0, h1, h2, ParseStatus, ParseTwoUint7, hv, Nat.pos_of_ne_zero hv]

/-- The statement of C5 at the NoteOn of the example, channel 0, key 61,
velocity 100 (the bytes 90 3D 64), where GetNoteStart returns true, at the same
note with velocity 0, where it returns false, and at the NoteOff 80 3D 00. -/
theorem getNoteStart_spec_witness :
    (Message.GetNoteStart [0x90, 0x3D, 0x64] 0 0 0).map Prod.fst = some true ∧
    (Message.GetNoteStart [0x90, 0x3D, 0x00] 0 0 0).map Prod.fst = some false ∧
    Message.GetNoteStart [0x80, 0x3D, 0x00] 9 8 7 = some (false, 9, 8, 7) ∧
    Message.GetNoteStart [0xB8, 0x07, 0x6E] 9 8 7 = some (false, 9, 8, 7) := by
  obtain ⟨⟨is, out⟩, hr, hiff, _⟩ :=
    (getNoteStart_spec [0x90, 0x3D, 0x64] 0 0 0).2.2 0x90 0x3D 0x64 rfl rfl rfl
  obtain ⟨⟨is0, out0⟩, hr0, _, hzero⟩ :=
    (getNoteStart_spec [0x90, 0x3D, 0x00] 0 0 0).2.2 0x90 0x3D 0x00 rfl rfl rfl
  have h1 : is = true := hiff.2 ⟨by decide, by decide⟩
  have h0 : is0 = false := hzero (by decide) (by decide)
  subst h1 h0
  exact ⟨by rw [hr]; rfl, by rw [hr0]; rfl,
    (getNoteStart_spec [0x80, 0x3D, 0x00] 9 8 7).2.1 (by decide),
    (getNoteStart_spec [0xB8, 0x07, 0x6E] 9 8 7).1 (by decide)⟩

theorem and_7F_le (b : Nat) : b &&& 0x7F ≤ 127 := Nat.and_le_right

/-- The extraction of a pitch bend message built from a 14-bit absolute value. -/
theorem getPitchBend_of_abs (c : Channel) (abs : Nat) (habs : abs < 16384) (c0 : Nat)
    (r0 : Int) (a0 : Nat) :
    Message.GetPitchBend [0xE0 ||| c.val, abs &&& 0x7F, (abs >>> 7) &&& 0x7F] c0 (some r0)
      (some a0) = some (true, c.val, some ((abs : Int) - 8192), some abs) := by
  have hE := (Is_status c).2.2.2.2.2.2
  have sE := (status_channel c).2.2.2.2.2.2
  have hval : (ParsePitchWheelVals (abs &&& 0x7F) ((abs >>> 7) &&& 0x7F)).2 = abs := by
    rw [ParsePitchWheelVals_abs, and_7F_of_le (and_7F_le _), and_7F_of_le (and_7F_le _),
      and_7F_eq_mod, and_7F_eq_mod, Nat.shiftRight_eq_div_pow]
    omega
  have hrel : (ParsePitchWheelVals (abs &&& 0x7F) ((abs >>> 7) &&& 0x7F)).1
      = ((ParsePitchWheelVals (abs &&& 0x7F) ((abs >>> 7) &&& 0x7F)).2 : Int) - 8192 := rfl
  rw [hval] at hrel
  simp [Message.GetPitchBend, Is_cons, hE, ParseStatus, sE, hval, hrel]

/-- GetPitchBend apart from truncated messages: for every message m with
m.Is(PitchBendMsg) holding the bytes m[0], m[1] and m[2], it returns true with
absolute = (m[2] & 0x7F) * 128 + (m[1] & 0x7F), which lies in [0, 16383], and relative = absolute - 8192, which
lies in [-8192, 8191]; a nil relative or absolute stays nil and changes neither
the other output nor the boolean result. -/
theorem getPitchBend_spec (m : Message) (b0 b1 b2 channel : Nat) (relative : Option Int)
    (absolute : Option Nat) (h0 : m[0]? = some b0) (h1 : m[1]? = some b1)
    (h2 : m[2]? = some b2) (his : m.Is PitchBendMsg = true) :
    m.GetPitchBend channel relative absolute
      = some (true, b0 &&& 0x0F,
          relative.map (fun _ => (((b2 &&& 0x7F) * 128 + (b1 &&& 0x7F) : Nat) : Int) - 8192),
          absolute.map (fun _ => (b2 &&& 0x7F) * 128 + (b1 &&& 0x7F))) ∧
    (b2 &&& 0x7F) * 128 + (b1 &&& 0x7F) ≤ 16383 ∧
    -8192 ≤ (((b2 &&& 0x7F) * 128 + (b1 &&& 0x7F) : Nat) : Int) - 8192 ∧
    (((b2 &&& 0x7F) * 128 + (b1 &&& 0x7F) : Nat) : Int) - 8192 ≤ 8191 := by
  have hb1 := and_7F_le b1
  have hb2 := and_7F_le b2
  have hval := ParsePitchWheelVals_abs b1 b2
  have hrel : (ParsePitchWheelVals b1 b2).1 = ((ParsePitchWheelVals b1 b2).2 : Int) - 8192 := rfl
  rw [hval] at hrel
  refine ⟨?_, by omega, by omega, by omega⟩
  cases relative <;> cases absolute <;>
    simp [Message.GetPitchBend, his, h0, h1, h2, ParseStatus, hval, hrel]

/-- GetPitchBend at the complete message Channel(4).Pitchbend(300), the bytes
E4 2C 42: with a nil relative pointer the absolute value is 8492, with a nil
absolute pointer the relative value is 300. -/
theorem getPitchBend_spec_witness :
    Message.GetPitchBend [0xE4, 0x2C, 0x42] 0 none (some 0)
      = some (true, 4, none, some 8492) ∧
    Message.GetPitchBend [0xE4, 0x2C, 0x42] 0 (some 0) none
      = some (true, 4, some 300, none) :=
  ⟨(getPitchBend_spec [0xE4, 0x2C, 0x42] 0xE4 0x2C 0x42 0 none (some 0) rfl rfl rfl
      (by decide)).1,
   (getPitchBend_spec [0xE4, 0x2C, 0x42] 0xE4 0x2C 0x42 0 (some 0) none rfl rfl rfl
      (by decide)).1⟩

/-- C7: for every channel c in 0..15 and every relative pitch v in
[-8192, 8191], GetPitchBend applied to Channel(c).Pitchbend(v) returns true with
channel = c, relative = v and absolute = v + 8192. -/
theorem pitchbend_roundtrip (c : Channel) (v : Int) (hlo : -8192 ≤ v) (hhi : v ≤ 8191)
    (c0 : Nat) (r0 : Int) (a0 : Nat) :
    ∃ a : Nat, (a : Int) = v + 8192 ∧
      (c.Pitchbend v).GetPitchBend c0 (some r0) (some a0) = some (true, c.val, some v, some a) := by
  refine ⟨(v + 8192).toNat, by omega, ?_⟩
  have hv : (if v > 8191 then 8191 else if v < -8192 then -8192 else v) = v := by
    split_ifs <;> omega
  have h := getPitchBend_of_abs c (v + 8192).toNat (by omega) c0 r0 a0
  have e : (((v + 8192).toNat : Nat) : Int) - 8192 = v := by omega
  rw [e] at h
  simpa [Channel.Pitchbend, hv] using h

/-- The round trip of C7 at the examples of the tests: Channel(4).Pitchbend(300)
is the bytes E4 2C 42 and extracts as 300 (8492); Pitchbend(-12) on channel 0
extracts as -12 (8180). -/
theorem pitchbend_roundtrip_witness :
    Channel.Pitchbend 4 300 = [0xE4, 0x2C, 0x42] ∧
    (Channel.Pitchbend 4 300).GetPitchBend 0 (some 0) (some 0)
      = some (true, 4, some 300, some 8492) ∧
    (Channel.Pitchbend 0 (-12)).GetPitchBend 0 (some 0) (some 0)
      = some (true, 0, some (-12), some 8180) := by
  refine ⟨by decide, ?_, ?_⟩
  · obtain ⟨a, ha, h⟩ := pitchbend_roundtrip 4 300 (by decide) (by decide) 0 0 0
    have : a = 8492 := by omega
    subst this
    exact h
  · obtain ⟨a, ha, h⟩ := pitchbend_roundtrip 0 (-12) (by decide) (by decide) 0 0 0
    have : a = 8180 := by omega
    subst this
    exact h

/-- C8: the Pitchbend constructor saturates rather than wraps: for every
relative pitch v greater than 8191 the built message extracts as relative 8191
and absolute 16383, and for every v less than -8192 it extracts as relative
-8192 and absolute 0. -/
theorem pitchbend_saturates (c : Channel) (v : Int) (c0 : Nat) (r0 : Int) (a0 : Nat) :
    (8191 < v → (c.Pitchbend v).GetPitchBend c0 (some r0) (some a0)
      = some (true, c.val, some 8191, some 16383)) ∧
    (v < -8192 → (c.Pitchbend v).GetPitchBend c0 (some r0) (some a0)
      = some (true, c.val, some (-8192), some 0)) := by
  constructor
  · intro h
    have hv : (if v > 8191 then 8191 else if v < -8192 then -8192 else v) = 8191 := by
      split_ifs <;> omega
    simpa [Channel.Pitchbend, hv] using getPitchBend_of_abs c 16383 (by decide) c0 r0 a0
  · intro h
    have hv : (if v > 8191 then 8191 else if v < -8192 then -8192 else v) = -8192 := by
      split_ifs <;> omega
    simpa [Channel.Pitchbend, hv] using getPitchBend_of_abs c 0 (by decide) c0 r0 a0

/-- The saturation of C8 at Channel(4).Pitchbend(12300) of `TestChannelString`
and at Pitchbend(-9000). -/
theorem pitchbend_saturates_witness :
    ((8191 : Int) < 12300 ∧ (Channel.Pitchbend 4 12300).GetPitchBend 0 (some 0) (some 0)
      = some (true, 4, some 8191, some 16383)) ∧
    ((-9000 : Int) < -8192 ∧ (Channel.Pitchbend 4 (-9000)).GetPitchBend 0 (some 0) (some 0)
      = some (true, 4, some (-8192), some 0)) :=
  ⟨⟨by decide, (pitchbend_saturates 4 12300 0 0 0).1 (by decide)⟩,
   ⟨by decide, (pitchbend_saturates 4 (-9000) 0 0 0).2 (by decide)⟩⟩

/-- The Go slice `m[1 : len(m)-1]` is m without its first and last byte. -/
theorem inner_slice (m : List Nat) : (m.take (m.length - 1)).drop 1 = m.tail.dropLast := by
  cases m with
  | nil => rfl
  | cons a t =>
    cases t with
    | nil => rfl
    | cons b u => simp [List.dropLast_eq_take]

/-- C9, as stated, fails: the sysex message with an empty payload, F0 F7, is a
SysExMsg and GetSysEx returns false on it, leaving the slice as it was; so it
does on F0 01 02, a SysExMsg of three bytes without the terminating F7. -/
theorem getSysEx_empty_payload_false :
    Message.Is [0xF0, 0xF7] SysExMsg = true ∧
    Message.GetSysEx [0xF0, 0xF7] [0x55] = some (false, [0x55]) ∧
    Message.Is [0xF0, 0x01, 0x02] SysExMsg = true ∧
    Message.GetSysEx [0xF0, 0x01, 0x02] [0x55] = some (false, [0x55]) := by
  decide

/-- C9, amended: for every message m of at least three bytes that is a sysex
message, begins with F0 and ends with F7, GetSysEx returns true and yields the
inner bytes of m, i.e. m without its first and last byte; for every message of
fewer than three bytes it returns false and leaves the slice as it was. -/
theorem getSysEx_spec (m : Message) (bt : List Nat) :
    (m.Is SysExMsg = true → 3 ≤ m.length → m[0]? = some 0xF0 →
      m[m.length - 1]? = some 0xF7 → m.GetSysEx bt = some (true, m.tail.dropLast)) ∧
    (m.length < 3 → m.GetSysEx bt = some (false, bt)) := by
  constructor
  · intro his hlen hfirst hlast
    have hnot : ¬ m.length < 3 := by omega
    simp only [Message.GetSysEx, hnot, his, hfirst, hlast, inner_slice]
    rfl
  · intro hlen
    simp [Message.GetSysEx, hlen]

/-- The amended C9 at the sysex message F0 01 AB F7, whose inner bytes are
01 AB, and at the two-byte message F0 F7. -/
theorem getSysEx_spec_witness :
    Message.GetSysEx [0xF0, 0x01, 0xAB, 0xF7] [] = some (true, [0x01, 0xAB]) ∧
    Message.GetSysEx [0xF0, 0xF7] [] = some (false, []) :=
  ⟨(getSysEx_spec [0xF0, 0x01, 0xAB, 0xF7] []).1 (by decide) (by decide) rfl rfl,
   (getSysEx_spec [0xF0, 0xF7] []).2 (by decide)⟩

/-- C10 fails on the code: on a message that holds only a channel or system
status byte, such as the single byte 0x90, every extractor of fixed-length
messages, and String with them, indexes the message out of range (the result
`none`), while GetSysEx, which checks the length first, returns false. -/
theorem extractors_panic_on_truncated :
    Message.Is [0x90] NoteOnMsg = true ∧
    Message.GetNoteOn [0x90] 0 0 0 = none ∧
    Message.GetNoteStart [0x90] 0 0 0 = none ∧
    Message.GetNoteOff [0x80] 0 0 0 = none ∧
    Message.GetNoteEnd [0x90] 0 0 = none ∧
    Message.GetPolyAfterTouch [0xA0] 0 0 0 = none ∧
    Message.GetControlChange [0xB0] 0 0 0 = none ∧
    Message.GetPitchBend [0xE0] 0 (some 0) (some 0) = none ∧
    Message.GetAfterTouch [0xD0] 0 0 = none ∧
    Message.GetProgramChange [0xC0] 0 0 = none ∧
    Message.GetMTC [0xF1] 0 = none ∧
    Message.GetSongSelect [0xF3] 0 = none ∧
    Message.GetSPP [0xF2] 0 = none ∧
    Message.String [0x90] = none ∧
    Message.GetNoteOn [0x90, 0x40] 0 0 0 = none ∧
    Message.GetSysEx [0xF0] [] = some (false, []) := by
  and_intros <;> rfl

/-- C11, as stated, fails: on the zero-velocity NoteOn 90 3D 00 GetNoteStart
returns false after it has written channel 0, key 61 and velocity 0 over the
values 9, 8, 7 its arguments held, and on the NoteOn 90 3D 64 GetNoteEnd returns
false after it has written channel 0 and key 61. -/
theorem getNoteStart_getNoteEnd_write_on_false :
    Message.GetNoteStart [0x90, 0x3D, 0x00] 9 8 7 = some (false, 0, 61, 0) ∧
    Message.GetNoteEnd [0x90, 0x3D, 0x64] 9 8 = some (false, 0, 61) := by
  constructor <;> rfl

/-- C11, amended: when m is not a NoteOnMsg, GetNoteStart returns false and its
channel, key and velocity arguments still hold the values they had before the
call, and so do the channel and key arguments of GetNoteEnd when m is neither a
NoteOnMsg nor a NoteOffMsg; on a NoteOnMsg the arguments are written before the
velocity is tested, so that GetNoteStart returns false on a zero-velocity NoteOn
with channel = m[0] & 0x0F, key = m[1] & 0x7F and velocity = 0 written, and
GetNoteEnd returns false on a NoteOn of velocity > 0 with channel and key
written. -/
theorem getNoteStart_getNoteEnd_frame (m : Message) (channel key velocity : Nat) :
    (m.Is NoteOnMsg = false →
      m.GetNoteStart channel key velocity = some (false, channel, key, velocity)) ∧
    (m.Is NoteOnMsg = false → m.Is NoteOffMsg = false →
      m.GetNoteEnd channel key = some (false, channel, key)) ∧
    (∀ b0 b1 b2, m[0]? = some b0 → m[1]? = some b1 → m[2]? = some b2 →
      m.Is NoteOnMsg = true →
      (b2 &&& 0x7F = 0 →
        m.GetNoteStart channel key velocity = some (false, b0 &&& 0x0F, b1 &&& 0x7F, 0)) ∧
      (0 < b2 &&& 0x7F →
        m.GetNoteEnd channel key = some (false, b0 &&& 0x0F, b1 &&& 0x7F))) := by
  refine ⟨?_, ?_, ?_⟩
  · intro h
    simp [Message.GetNoteStart, h]
  · intro hon hoff
    simp [Message.GetNoteEnd, hon, hoff]
  · intro b0 b1 b2 h0 h1 h2 hon
    have hoff : m.Is NoteOffMsg = false := by
      cases hoff : m.Is NoteOffMsg
      · rfl
      · exact absurd (noteOff_not_noteOn m hoff) (by simp [hon])
    constructor
    · intro hv
      simp [Message.GetNoteStart, hon, h0, h1, h2, ParseStatus, ParseTwoUint7, hv]
    · intro hv
      have hv0 : ¬ (b2 &&& 0x7F = 0) := by omega
      simp [Message.GetNoteEnd, hon, hoff, h0, h1, h2, ParseStatus, ParseTwoUint7, hv0]

/-- The amended C11 at the control change B8 07 6E, which leaves the arguments
of both extractors as they were, and at the NoteOn messages 90 3D 00 and
90 3D 64, where the false result comes with the written channel and key. -/
theorem getNoteStart_getNoteEnd_frame_witness :
    Message.GetNoteStart [0xB8, 0x07, 0x6E] 9 8 7 = some (false, 9, 8, 7) ∧
    Message.GetNoteEnd [0xB8, 0x07, 0x6E] 9 8 = some (false, 9, 8) ∧
    Message.GetNoteStart [0x90, 0x3D, 0x00] 9 8 7 = some (false, 0, 61, 0) ∧
    Message.GetNoteEnd [0x90, 0x3D, 0x64] 9 8 = some (false, 0, 61) :=
  ⟨(getNoteStart_getNoteEnd_frame [0xB8, 0x07, 0x6E] 9 8 7).1 (by decide),
   (getNoteStart_getNoteEnd_frame [0xB8, 0x07, 0x6E] 9 8 7).2.1 (by decide) (by decide),
   ((getNoteStart_getNoteEnd_frame [0x90, 0x3D, 0x00] 9 8 7).2.2 0x90 0x3D 0x00 rfl rfl rfl
      (by decide)).1 (by decide),
   ((getNoteStart_getNoteEnd_frame [0x90, 0x3D, 0x64] 9 8 7).2.2 0x90 0x3D 0x64 rfl rfl rfl
      (by decide)).2 (by decide)⟩

/-- C12: extraction is idempotent and non-consuming: for every message m and
every extractor, calling it a second time on m, with the arguments as the first
call left them, gives the same boolean and the same extracted values as the first
call (and a call that fails, fails again); the message is an argument passed by
value that no extractor assigns to, so its bytes are the same after the call. -/
theorem extractors_idempotent (m : Message) (a b c : Nat) (rel : Option Int)
    (abs : Option Nat) (bt : List Nat) :
    ((m.GetNoteOn a b c).bind fun r => m.GetNoteOn r.2.1 r.2.2.1 r.2.2.2) = m.GetNoteOn a b c ∧
    ((m.GetNoteOff a b c).bind fun r => m.GetNoteOff r.2.1 r.2.2.1 r.2.2.2)
      = m.GetNoteOff a b c ∧
    ((m.GetNoteStart a b c).bind fun r => m.GetNoteStart r.2.1 r.2.2.1 r.2.2.2)
      = m.GetNoteStart a b c ∧
    ((m.GetNoteEnd a b).bind fun r => m.GetNoteEnd r.2.1 r.2.2) = m.GetNoteEnd a b ∧
    ((m.GetPolyAfterTouch a b c).bind fun r => m.GetPolyAfterTouch r.2.1 r.2.2.1 r.2.2.2)
      = m.GetPolyAfterTouch a b c ∧
    ((m.GetAfterTouch a b).bind fun r => m.GetAfterTouch r.2.1 r.2.2) = m.GetAfterTouch a b ∧
    ((m.GetControlChange a b c).bind fun r => m.GetControlChange r.2.1 r.2.2.1 r.2.2.2)
      = m.GetControlChange a b c ∧
    ((m.GetProgramChange a b).bind fun r => m.GetProgramChange r.2.1 r.2.2)
      = m.GetProgramChange a b ∧
    ((m.GetPitchBend a rel abs).bind fun r => m.GetPitchBend r.2.1 r.2.2.1 r.2.2.2)
      = m.GetPitchBend a rel abs ∧
    ((m.GetMTC a).bind fun r => m.GetMTC r.2) = m.GetMTC a ∧
    ((m.GetSongSelect a).bind fun r => m.GetSongSelect r.2) = m.GetSongSelect a ∧
    ((m.GetSPP a).bind fun r => m.GetSPP r.2) = m.GetSPP a ∧
    ((m.GetSysEx bt).bind fun r => m.GetSysEx r.2) = m.GetSysEx bt := by
  refine ⟨?_, ?_, ?_, ?_, ?_, ?_, ?_, ?_, ?_, ?_, ?_, ?_, ?_⟩
  · unfold Message.GetNoteOn
    cases m.Is NoteOnMsg <;> cases m[0]? <;> cases m[1]? <;> cases m[2]? <;> simp
  · unfold Message.GetNoteOff
    cases m.Is NoteOffMsg <;> cases m[0]? <;> cases m[1]? <;> cases m[2]? <;> simp
  · unfold Message.GetNoteStart
    cases m.Is NoteOnMsg <;> cases m[0]? <;> cases m[1]? <;> cases m[2]? <;> simp
    split <;> simp_all
  · unfold Message.GetNoteEnd
    cases m.Is NoteOnMsg <;> cases m.Is NoteOffMsg <;> cases m[0]? <;> cases m[1]? <;>
      cases m[2]? <;> simp
  · unfold Message.GetPolyAfterTouch
    cases m.Is PolyAfterTouchMsg <;> cases m[0]? <;> cases m[1]? <;> cases m[2]? <;> simp
  · unfold Message.GetAfterTouch
    cases m.Is AfterTouchMsg <;> cases m[0]? <;> cases m[1]? <;> simp
  · unfold Message.GetControlChange
    cases m.Is ControlChangeMsg <;> cases m[0]? <;> cases m[1]? <;> cases m[2]? <;> simp
  · unfold Message.GetProgramChange
    cases m.Is ProgramChangeMsg <;> cases m[0]? <;> cases m[1]? <;> simp
  · unfold Message.GetPitchBend
    cases m.Is PitchBendMsg <;> cases m[0]? <;> cases m[1]? <;> cases m[2]? <;>
      cases rel <;> cases abs <;> simp
  · unfold Message.GetMTC
    cases m.Is MTCMsg <;> cases m[1]? <;> simp
  · unfold Message.GetSongSelect
    cases m.Is SongSelectMsg <;> cases m[1]? <;> simp
  · unfold Message.GetSPP
    cases m.Is SPPMsg <;> cases m[1]? <;> cases m[2]? <;> simp
  · unfold Message.GetSysEx
    by_cases hlen : m.length < 3
    · simp [hlen]
    · cases m.Is SysExMsg <;> cases m[0]? <;> cases m[m.length - 1]? <;> simp [hlen]
      split <;> simp_all

/-! ## String -/

theorem bind_renders {α : Type} (name : String) (x : Option α) (f : α → Option String)
    (hx : x.isSome = true) (h : ∀ a, ∃ rest, f a = some (name ++ rest)) :
    ∃ rest, x.bind f = some (name ++ rest) := by
  cases x with
  | none => simp at hx
  | some a => exact h a

theorem ite_renders (name : String) (c : Prop) [Decidable c] (a b : Option String)
    (ha : ∃ rest, a = some (name ++ rest)) (hb : ∃ rest, b = some (name ++ rest)) :
    ∃ rest, (if c then a else b) = some (name ++ rest) := by
  split
  · exact ha
  · exact hb

theorem getType_of_Is (m : Message) (t : MsgType) (h : m.Is t = true)
    (hc : t ≠ ChannelMsg) (hs : t ≠ SysCommonMsg) (hr : t ≠ RealTimeMsg) : getType m = t := by
  unfold Message.Is MsgType.Is at h
  generalize getType m = ty at h ⊢
  cases ty <;> cases t <;>
    first
    | rfl
    | exact absurd h (by decide)
    | exact (hc rfl).elim
    | exact (hs rfl).elim
    | exact (hr rfl).elim

theorem length_of_Is (m : Message) (h : m.hasDataBytes = true) :
    (m.Is NoteOnMsg = true → 3 ≤ m.length) ∧ (m.Is NoteOffMsg = true → 3 ≤ m.length) ∧
    (m.Is PolyAfterTouchMsg = true → 3 ≤ m.length) ∧
    (m.Is ControlChangeMsg = true → 3 ≤ m.length) ∧
    (m.Is PitchBendMsg = true → 3 ≤ m.length) ∧ (m.Is SPPMsg = true → 3 ≤ m.length) ∧
    (m.Is AfterTouchMsg = true → 2 ≤ m.length) ∧
    (m.Is ProgramChangeMsg = true → 2 ≤ m.length) ∧
    (m.Is MTCMsg = true → 2 ≤ m.length) ∧ (m.Is SongSelectMsg = true → 2 ≤ m.length) := by
  unfold Message.hasDataBytes at h
  refine ⟨?_, ?_, ?_, ?_, ?_, ?_, ?_, ?_, ?_, ?_⟩ <;>
  · intro hIs
    rw [getType_of_Is m _ hIs (by decide) (by decide) (by decide)] at h
    simpa using h

theorem three_bytes (m : Message) (h : 3 ≤ m.length) :
    ∃ b0 b1 b2 rest, m = b0 :: b1 :: b2 :: rest := by
  rcases m with _ | ⟨b0, _ | ⟨b1, _ | ⟨b2, rest⟩⟩⟩
  · simp at h
  · simp at h
  · simp at h
  · exact ⟨b0, b1, b2, rest, rfl⟩

theorem two_bytes (m : Message) (h : 2 ≤ m.length) : ∃ b0 b1 rest, m = b0 :: b1 :: rest := by
  rcases m with _ | ⟨b0, _ | ⟨b1, rest⟩⟩
  · simp at h
  · simp at h
  · exact ⟨b0, b1, rest, rfl⟩

theorem extractors_return (m : Message) (h : m.hasDataBytes = true) (a b c : Nat)
    (rel : Option Int) (abs : Option Nat) (bt : List Nat) :
    (m.GetNoteOn a b c).isSome = true ∧ (m.GetNoteOff a b c).isSome = true ∧
    (m.GetPolyAfterTouch a b c).isSome = true ∧ (m.GetAfterTouch a b).isSome = true ∧
    (m.GetControlChange a b c).isSome = true ∧ (m.GetProgramChange a b).isSome = true ∧
    (m.GetPitchBend a rel abs).isSome = true ∧ (m.GetMTC a).isSome = true ∧
    (m.GetSPP a).isSome = true ∧ (m.GetSongSelect a).isSome = true ∧
    (m.GetSysEx bt).isSome = true := by
  obtain ⟨lOn, lOff, lPoly, lCC, lPB, lSPP, lAT, lPC, lMTC, lSong⟩ := length_of_Is m h
  refine ⟨?_, ?_, ?_, ?_, ?_, ?_, ?_, ?_, ?_, ?_, ?_⟩
  · cases hIs : m.Is NoteOnMsg
    · simp [Message.GetNoteOn, hIs]
    · obtain ⟨b0, b1, b2, rest, rfl⟩ := three_bytes m (lOn hIs)
      simp [Message.GetNoteOn, hIs]
  · cases hIs : m.Is NoteOffMsg
    · simp [Message.GetNoteOff, hIs]
    · obtain ⟨b0, b1, b2, rest, rfl⟩ := three_bytes m (lOff hIs)
      simp [Message.GetNoteOff, hIs]
  · cases hIs : m.Is PolyAfterTouchMsg
    · simp [Message.GetPolyAfterTouch, hIs]
    · obtain ⟨b0, b1, b2, rest, rfl⟩ := three_bytes m (lPoly hIs)
      simp [Message.GetPolyAfterTouch, hIs]
  · cases hIs : m.Is AfterTouchMsg
    · simp [Message.GetAfterTouch, hIs]
    · obtain ⟨b0, b1, rest, rfl⟩ := two_bytes m (lAT hIs)
      simp [Message.GetAfterTouch, hIs]
  · cases hIs : m.Is ControlChangeMsg
    · simp [Message.GetControlChange, hIs]
    · obtain ⟨b0, b1, b2, rest, rfl⟩ := three_bytes m (lCC hIs)
      simp [Message.GetControlChange, hIs]
  · cases hIs : m.Is ProgramChangeMsg
    · simp [Message.GetProgramChange, hIs]
    · obtain ⟨b0, b1, rest, rfl⟩ := two_bytes m (lPC hIs)
      simp [Message.GetProgramChange, hIs]
  · cases hIs : m.Is PitchBendMsg
    · simp [Message.GetPitchBend, hIs]
    · obtain ⟨b0, b1, b2, rest, rfl⟩ := three_bytes m (lPB hIs)
      simp [Message.GetPitchBend, hIs]
  · cases hIs : m.Is MTCMsg
    · simp [Message.GetMTC, hIs]
    · obtain ⟨b0, b1, rest, rfl⟩ := two_bytes m (lMTC hIs)
      simp [Message.GetMTC, hIs]
  · cases hIs : m.Is SPPMsg
    · simp [Message.GetSPP, hIs]
    · obtain ⟨b0, b1, b2, rest, rfl⟩ := three_bytes m (lSPP hIs)
      simp [Message.GetSPP, hIs]
  · cases hIs : m.Is SongSelectMsg
    · simp [Message.GetSongSelect, hIs]
    · obtain ⟨b0, b1, rest, rfl⟩ := two_bytes m (lSong hIs)
      simp [Message.GetSongSelect, hIs]
  · unfold Message.GetSysEx
    by_cases hlen : m.length < 3
    · simp [hlen]
    · have h0 : 0 < m.length := by omega
      have hl : m.length - 1 < m.length := by omega
      simp only [hlen, if_false, List.getElem?_eq_getElem h0, List.getElem?_eq_getElem hl]
      cases m.Is SysExMsg
      · simp
      · simp only [Bool.not_true, Bool.false_eq_true, if_false, Option.bind_eq_bind,
          Option.some_bind]
        split <;> rfl

/-- String apart from truncated messages: for every message m holding the data
bytes its type declares, m.String() returns a string that starts with
m.Type().String(); and when none of the extractors tried by String (NoteOn, NoteOff, PolyAfterTouch, AfterTouch,
ControlChange, ProgramChange, PitchBend, MTC, SPP, SongSelect, SysEx) matches m,
m.String() is exactly m.Type().String() with nothing appended. -/
theorem string_spec (m : Message) :
    (m.hasDataBytes = true → ∃ rest, m.String = some ((getType m).String ++ rest)) ∧
    ((∀ a b c, (m.GetNoteOn a b c).map Prod.fst = some false) →
     (∀ a b c, (m.GetNoteOff a b c).map Prod.fst = some false) →
     (∀ a b c, (m.GetPolyAfterTouch a b c).map Prod.fst = some false) →
     (∀ a b, (m.GetAfterTouch a b).map Prod.fst = some false) →
     (∀ a b c, (m.GetControlChange a b c).map Prod.fst = some false) →
     (∀ a b, (m.GetProgramChange a b).map Prod.fst = some false) →
     (∀ a rel abs, (m.GetPitchBend a rel abs).map Prod.fst = some false) →
     (∀ a, (m.GetMTC a).map Prod.fst = some false) →
     (∀ a, (m.GetSPP a).map Prod.fst = some false) →
     (∀ a, (m.GetSongSelect a).map Prod.fst = some false) →
     (∀ bt, (m.GetSysEx bt).map Prod.fst = some false) →
     m.String = some (getType m).String) := by
  constructor
  · intro h
    have R1 : ∀ a b c, (m.GetNoteOn a b c).isSome = true :=
      fun a b c => (extractors_return m h a b c none none []).1
    have R2 : ∀ a b c, (m.GetNoteOff a b c).isSome = true :=
      fun a b c => (extractors_return m h a b c none none []).2.1
    have R3 : ∀ a b c, (m.GetPolyAfterTouch a b c).isSome = true :=
      fun a b c => (extractors_return m h a b c none none []).2.2.1
    have R4 : ∀ a b, (m.GetAfterTouch a b).isSome = true :=
      fun a b => (extractors_return m h a b 0 none none []).2.2.2.1
    have R5 : ∀ a b c, (m.GetControlChange a b c).isSome = true :=
      fun a b c => (extractors_return m h a b c none none []).2.2.2.2.1
    have R6 : ∀ a b, (m.GetProgramChange a b).isSome = true :=
      fun a b => (extractors_return m h a b 0 none none []).2.2.2.2.2.1
    have R7 : ∀ a rel abs, (m.GetPitchBend a rel abs).isSome = true :=
      fun a rel abs => (extractors_return m h a 0 0 rel abs []).2.2.2.2.2.2.1
    have R8 : ∀ a, (m.GetMTC a).isSome = true :=
      fun a => (extractors_return m h a 0 0 none none []).2.2.2.2.2.2.2.1
    have R9 : ∀ a, (m.GetSPP a).isSome = true :=
      fun a => (extractors_return m h a 0 0 none none []).2.2.2.2.2.2.2.2.1
    have R10 : ∀ a, (m.GetSongSelect a).isSome = true :=
      fun a => (extractors_return m h a 0 0 none none []).2.2.2.2.2.2.2.2.2.1
    have R11 : ∀ bt, (m.GetSysEx bt).isSome = true :=
      fun bt => (extractors_return m h 0 0 0 none none bt).2.2.2.2.2.2.2.2.2.2
    unfold Message.String
    simp only [Option.bind_eq_bind, Option.pure_def, Option.some_bind, String.append_assoc]
    refine bind_renders _ _ _ (R1 _ _ _) fun r1 => ite_renders _ _ _ _ ⟨_, rfl⟩ ?_
    refine bind_renders _ _ _ (R2 _ _ _) fun r2 =>
      ite_renders _ _ _ _ (ite_renders _ _ _ _ ⟨_, rfl⟩ ⟨_, rfl⟩) ?_
    refine bind_renders _ _ _ (R3 _ _ _) fun r3 => ite_renders _ _ _ _ ⟨_, rfl⟩ ?_
    refine bind_renders _ _ _ (R4 _ _) fun r4 => ite_renders _ _ _ _ ⟨_, rfl⟩ ?_
    refine bind_renders _ _ _ (R5 _ _ _) fun r5 => ite_renders _ _ _ _ ⟨_, rfl⟩ ?_
    refine bind_renders _ _ _ (R6 _ _) fun r6 => ite_renders _ _ _ _ ⟨_, rfl⟩ ?_
    refine bind_renders _ _ _ (R7 _ _ _) fun r7 => ite_renders _ _ _ _ ⟨_, rfl⟩ ?_
    refine bind_renders _ _ _ (R8 _) fun r8 => ite_renders _ _ _ _ ⟨_, rfl⟩ ?_
    refine bind_renders _ _ _ (R9 _) fun r9 => ite_renders _ _ _ _ ⟨_, rfl⟩ ?_
    refine bind_renders _ _ _ (R10 _) fun r10 => ite_renders _ _ _ _ ⟨_, rfl⟩ ?_
    refine bind_renders _ _ _ (R11 _) fun r11 => ite_renders _ _ _ _ ⟨_, rfl⟩ ?_
    exact ⟨"", by simp⟩
  · intro h1 h2 h3 h4 h5 h6 h7 h8 h9 h10 h11
    have step : ∀ {α : Type} (x : Option (Bool × α)) (f g : Bool × α → Option String),
        x.map Prod.fst = some false →
        (x.bind fun r => if r.1 = true then f r else g r) = x.bind g := by
      intro α x f g hx
      cases x with
      | none => rfl
      | some r =>
        have hr : r.1 = false := by simpa using hx
        simp [hr]
    have last : ∀ {α : Type} (x : Option (Bool × α)) (s : String),
        x.map Prod.fst = some false → (x.bind fun _ => some s) = some s := by
      intro α x s hx
      cases x with
      | none => simp at hx
      | some r => rfl
    unfold Message.String
    simp only [Option.bind_eq_bind, Option.pure_def, Option.some_bind]
    simp only [step, last, h1, h2, h3, h4, h5, h6, h7, h8, h9, h10, h11]

/-- String at the complete message Channel(2).NoteOn(100, 80), whose
rendering starts with the type name, and at the timing clock F8, which no
extractor matches and which renders as its type name alone. -/
theorem string_spec_witness :
    (∃ rest, Message.String [0x92, 0x64, 0x50] = some ("NoteOnMsg" ++ rest)) ∧
    Message.String [0xF8] = some "TimingClockMsg" :=
  ⟨(string_spec [0x92, 0x64, 0x50]).1 (by decide),
   (string_spec [0xF8]).2 (fun _ _ _ => rfl) (fun _ _ _ => rfl) (fun _ _ _ => rfl)
     (fun _ _ => rfl) (fun _ _ _ => rfl) (fun _ _ => rfl) (fun _ _ _ => rfl) (fun _ => rfl)
     (fun _ => rfl) (fun _ => rfl) (fun _ => rfl)⟩

/-- C14: for every NoteOff message m holding the bytes m[0], m[1] and m[2], with
channel c = m[0] & 0x0F, key k = m[1] & 0x7F and velocity v = m[2] & 0x7F, String
renders the type name, NoteOffMsg, followed by " channel: c key: k" when v = 0
and by " channel: c key: k velocity: v" when v > 0. -/
theorem string_noteOff (m : Message) (b0 b1 b2 : Nat) (h0 : m[0]? = some b0)
    (h1 : m[1]? = some b1) (h2 : m[2]? = some b2) (hoff : m.Is NoteOffMsg = true) :
    (getType m).String = "NoteOffMsg" ∧
    (b2 &&& 0x7F = 0 →
      m.String = some ((getType m).String ++ " channel: " ++ toString (b0 &&& 0x0F)
        ++ " key: " ++ toString (b1 &&& 0x7F))) ∧
    (0 < b2 &&& 0x7F →
      m.String = some ((getType m).String ++ " channel: " ++ toString (b0 &&& 0x0F)
        ++ " key: " ++ toString (b1 &&& 0x7F) ++ " velocity: " ++ toString (b2 &&& 0x7F))) := by
  have hty := getType_of_Is m NoteOffMsg hoff (by decide) (by decide) (by decide)
  have e1 : m.GetNoteOn 0 0 0 = some (false, 0, 0, 0) := by
    simp [Message.GetNoteOn, noteOff_not_noteOn m hoff]
  have e2 : m.GetNoteOff 0 0 0 = some (true, b0 &&& 0x0F, b1 &&& 0x7F, b2 &&& 0x7F) := by
    simp [Message.GetNoteOff, hoff, h0, h1, h2, ParseStatus, ParseTwoUint7]
  refine ⟨by rw [hty]; rfl, ?_, ?_⟩
  · intro hv
    unfold Message.String
    simp only [Option.bind_eq_bind, Option.pure_def, Option.some_bind, e1, e2, hv]
    simp
  · intro hv
    unfold Message.String
    simp only [Option.bind_eq_bind, Option.pure_def, Option.some_bind, e1, e2]
    simp [hv]

/-- The statement of C14 at the messages of `TestChannelString`:
Channel(3).NoteOff(80), the bytes 83 50 00, and Channel(4).NoteOffVelocity(80, 20),
the bytes 84 50 14. -/
theorem string_noteOff_witness :
    Message.String [0x83, 0x50, 0x00] = some "NoteOffMsg channel: 3 key: 80" ∧
    Message.String [0x84, 0x50, 0x14] = some "NoteOffMsg channel: 4 key: 80 velocity: 20" :=
  ⟨(string_noteOff [0x83, 0x50, 0x00] 0x83 0x50 0x00 rfl rfl rfl (by decide)).2.1 (by decide),
   (string_noteOff [0x84, 0x50, 0x14] 0x84 0x50 0x14 rfl rfl rfl (by decide)).2.2 (by decide)⟩

theorem status_range (ch : Channel) :
    ∀ hi ∈ [0x80, 0x90, 0xA0, 0xB0, 0xC0, 0xD0, 0xE0], 0x80 ≤ hi ||| ch.val ∧
      hi ||| ch.val ≤ 0xFF := by
  revert ch; decide

/-- C15: for every channel c in 0..15 and in-range data values (k, v in 0..127,
r in [-8192, 8191]) the constructors produce exactly these bytes:
NoteOn(k,v) = [0x90|c, k, v]; NoteOff(k) = [0x80|c, k, 0];
NoteOffVelocity(k,v) = [0x80|c, k, v]; PolyAftertouch(k,v) = [0xA0|c, k, v];
ControlChange(k,v) = [0xB0|c, k, v]; ProgramChange(k) = [0xC0|c, k];
Aftertouch(k) = [0xD0|c, k];
Pitchbend(r) = [0xE0|c, (r+8192) mod 128, (r+8192) div 128]; in each of them the
first byte has its high bit set (it lies in 0x80..0xFF) and every data byte has
it clear (it is at most 0x7F). -/
theorem constructor_bytes (c : Channel) (k v : Nat) (r : Int) (hk : k ≤ 127) (hv : v ≤ 127)
    (hlo : -8192 ≤ r) (hhi : r ≤ 8191) :
    c.NoteOn k v = [0x90 ||| c.val, k, v] ∧
    c.NoteOff k = [0x80 ||| c.val, k, 0] ∧
    c.NoteOffVelocity k v = [0x80 ||| c.val, k, v] ∧
    c.PolyAftertouch k v = [0xA0 ||| c.val, k, v] ∧
    c.ControlChange k v = [0xB0 ||| c.val, k, v] ∧
    c.ProgramChange k = [0xC0 ||| c.val, k] ∧
    c.Aftertouch k = [0xD0 ||| c.val, k] ∧
    c.Pitchbend r = [0xE0 ||| c.val, (r + 8192).toNat % 128, (r + 8192).toNat / 128] ∧
    ∀ msg ∈ [c.NoteOn k v, c.NoteOff k, c.NoteOffVelocity k v, c.PolyAftertouch k v,
        c.ControlChange k v, c.ProgramChange k, c.Aftertouch k, c.Pitchbend r],
      ∃ status data, msg = status :: data ∧ 0x80 ≤ status ∧ status ≤ 0xFF ∧
        ∀ d ∈ data, d ≤ 0x7F := by
  have ck := clamp7_of_le hk
  have cv := clamp7_of_le hv
  have c0 : clamp7 0 = 0 := rfl
  have hr : (if r > 8191 then 8191 else if r < -8192 then -8192 else r) = r := by
    split_ifs <;> omega
  have hpb : c.Pitchbend r
      = [0xE0 ||| c.val, (r + 8192).toNat % 128, (r + 8192).toNat / 128] := by
    simp only [Channel.Pitchbend, hr]
    rw [and_7F_eq_mod, and_7F_eq_mod, Nat.shiftRight_eq_div_pow]
    congr 2
    have : (r + 8192).toNat < 16384 := by omega
    simp only [List.cons.injEq, and_true]
    omega
  have e1 : c.NoteOn k v = [0x90 ||| c.val, k, v] := by simp [Channel.NoteOn, ck, cv]
  have e2 : c.NoteOff k = [0x80 ||| c.val, k, 0] := by
    simp [Channel.NoteOff, Channel.NoteOffVelocity, ck, c0]
  have e3 : c.NoteOffVelocity k v = [0x80 ||| c.val, k, v] := by
    simp [Channel.NoteOffVelocity, ck, cv]
  have e4 : c.PolyAftertouch k v = [0xA0 ||| c.val, k, v] := by
    simp [Channel.PolyAftertouch, ck, cv]
  have e5 : c.ControlChange k v = [0xB0 ||| c.val, k, v] := by
    simp [Channel.ControlChange, ck, cv]
  have e6 : c.ProgramChange k = [0xC0 ||| c.val, k] := by simp [Channel.ProgramChange, ck]
  have e7 : c.Aftertouch k = [0xD0 ||| c.val, k] := by simp [Channel.Aftertouch, ck]
  refine ⟨e1, e2, e3, e4, e5, e6, e7, hpb, ?_⟩
  have hs := status_range c
  have hd1 : (r + 8192).toNat % 128 ≤ 0x7F := by omega
  have hd2 : (r + 8192).toNat / 128 ≤ 0x7F := by omega
  intro msg hmsg
  rw [e1, e2, e3, e4, e5, e6, e7, hpb] at hmsg
  simp only [List.mem_cons, List.mem_singleton, List.not_mem_nil, or_false] at hmsg
  rcases hmsg with rfl | rfl | rfl | rfl | rfl | rfl | rfl | rfl
  · exact ⟨_, _, rfl, (hs 0x90 (by simp)).1, (hs 0x90 (by simp)).2, by simp [hk, hv]⟩
  · exact ⟨_, _, rfl, (hs 0x80 (by simp)).1, (hs 0x80 (by simp)).2, by simp [hk]⟩
  · exact ⟨_, _, rfl, (hs 0x80 (by simp)).1, (hs 0x80 (by simp)).2, by simp [hk, hv]⟩
  · exact ⟨_, _, rfl, (hs 0xA0 (by simp)).1, (hs 0xA0 (by simp)).2, by simp [hk, hv]⟩
  · exact ⟨_, _, rfl, (hs 0xB0 (by simp)).1, (hs 0xB0 (by simp)).2, by simp [hk, hv]⟩
  · exact ⟨_, _, rfl, (hs 0xC0 (by simp)).1, (hs 0xC0 (by simp)).2, by simp [hk]⟩
  · exact ⟨_, _, rfl, (hs 0xD0 (by simp)).1, (hs 0xD0 (by simp)).2, by simp [hk]⟩
  · exact ⟨_, _, rfl, (hs 0xE0 (by simp)).1, (hs 0xE0 (by simp)).2, by simp [hd1, hd2]⟩

/-- The statement of C15 at the messages of `TestChannelRaw`: the bytes 92 64 50,
83 50 00, 84 50 14, A4 56 6D, B8 07 6E, C4 53, D1 78 and E4 2C 42. -/
theorem constructor_bytes_witness :
    Channel.NoteOn 2 100 80 = [0x92, 0x64, 0x50] ∧
    Channel.NoteOff 3 80 = [0x83, 0x50, 0x00] ∧
    Channel.NoteOffVelocity 4 80 20 = [0x84, 0x50, 0x14] ∧
    Channel.PolyAftertouch 4 86 109 = [0xA4, 0x56, 0x6D] ∧
    Channel.ControlChange 8 7 110 = [0xB8, 0x07, 0x6E] ∧
    Channel.ProgramChange 4 83 = [0xC4, 0x53] ∧
    Channel.Aftertouch 1 120 = [0xD1, 0x78] ∧
    Channel.Pitchbend 4 300 = [0xE4, 0x2C, 0x42] :=
  ⟨(constructor_bytes 2 100 80 0 (by decide) (by decide) (by decide) (by decide)).1,
   (constructor_bytes 3 80 0 0 (by decide) (by decide) (by decide) (by decide)).2.1,
   (constructor_bytes 4 80 20 0 (by decide) (by decide) (by decide) (by decide)).2.2.1,
   (constructor_bytes 4 86 109 0 (by decide) (by decide) (by decide) (by decide)).2.2.2.1,
   (constructor_bytes 8 7 110 0 (by decide) (by decide) (by decide) (by decide)).2.2.2.2.1,
   (constructor_bytes 4 83 0 0 (by decide) (by decide) (by decide) (by decide)).2.2.2.2.2.1,
   (constructor_bytes 1 120 0 0 (by decide) (by decide) (by decide)
     (by decide)).2.2.2.2.2.2.1,
   (constructor_bytes 4 0 0 300 (by decide) (by decide) (by decide)
     (by decide)).2.2.2.2.2.2.2.1⟩

/-! ## Running status -/

/-- C16: with running status enabled (the default of the writer), writing
NoteOn(k, v) and then NoteOff(k) on the same channel c emits the three bytes
[0x90|c, k, v] followed by only the two data bytes [k, 0]: the NoteOff is a
NoteOn with velocity 0, whose status byte equals the previous one and is
omitted. -/
theorem running_status_noteOn_noteOff (c : Channel) (k v : Nat) (hk : k ≤ 127)
    (hv : v ≤ 127) :
    (midiwriter.New.Write (channel.NoteOn c k v)).output = [0x90 ||| c.val, k, v] ∧
    ((midiwriter.New.Write (channel.NoteOn c k v)).Write (channel.NoteOff c k)).output
      = [0x90 ||| c.val, k, v] ++ [k, 0] := by
  have hs := status_range c 0x90 (by simp)
  have hs2 : 0x90 ||| c.val ≤ 0xEF := by revert c; decide
  simp [midiwriter.New, midiwriter.Writer.Write, channel.NoteOn, channel.NoteOff,
    clamp7_of_le hk, clamp7_of_le hv, hs.1, hs2]

/-- The statement of C16 at the messages of `TestReader`: Channel2.NoteOn(65, 90)
and Channel2.NoteOff(65) are written as 92 41 5A 41 00. -/
theorem running_status_noteOn_noteOff_witness :
    ((midiwriter.New.Write (channel.NoteOn 2 65 90)).Write (channel.NoteOff 2 65)).output
      = [0x92, 0x41, 0x5A, 0x41, 0x00] :=
  (running_status_noteOn_noteOff 2 65 90 (by decide) (by decide)).2

theorem takeBytes_append (data rest : List Nat) :
    midireader.takeBytes data.length (data ++ rest) = .ok (data, rest) := by
  simp [midireader.takeBytes]

theorem dataLength_pos (status : Nat) : 1 ≤ dataLength status := by
  unfold dataLength
  split <;> decide

theorem isChannelMessage_cons (status : Nat) (data : List Nat)
    (h : isChannelMessage (status :: data) = true) :
    0x80 ≤ status ∧ status ≤ 0xEF ∧ data.length = dataLength status ∧
    ∀ d ∈ data, d < 0x80 := by
  simpa [isChannelMessage, and_assoc] using h

/-- Reading a channel message that was written in full. -/
theorem readMessage_full (rs : Option Nat) (status : Nat) (data rest : List Nat)
    (h : isChannelMessage (status :: data) = true) :
    midireader.readMessage rs status (data ++ rest) = .ok (status :: data, some status, rest) := by
  obtain ⟨h1, h2, h3, _⟩ := isChannelMessage_cons status data h
  have h4 : ¬ status < 0x80 := by omega
  simp only [midireader.readMessage, h4, if_false, h2, if_true, ← h3, takeBytes_append]

/-- Reading a channel message that was written without its status byte, under the
running status it equals. -/
theorem readMessage_running (status : Nat) (data rest : List Nat)
    (h : isChannelMessage (status :: data) = true) :
    ∃ d tail, data = d :: tail ∧
      midireader.readMessage (some status) d (tail ++ rest)
        = .ok (status :: data, some status, rest) := by
  obtain ⟨_, _, h3, h4⟩ := isChannelMessage_cons status data h
  have hpos := dataLength_pos status
  cases data with
  | nil => simp at h3; omega
  | cons d tail =>
    refine ⟨d, tail, rfl, ?_⟩
    have hd : d < 0x80 := h4 d (by simp)
    have hl : dataLength status - 1 = tail.length := by simp at h3; omega
    simp only [midireader.readMessage, hd, if_true, hl, takeBytes_append]

/-- Writing a sequence of channel messages appends bytes that read back as that
sequence, whenever the reader retains the status the writer retains. -/
theorem write_read_aux (msgs : List Message) (hm : ∀ m ∈ msgs, isChannelMessage m = true) :
    ∀ w : midiwriter.Writer, ∃ bytes,
      (msgs.foldl midiwriter.Writer.Write w).output = w.output ++ bytes ∧
      msgs.length ≤ bytes.length ∧
      ∀ fuel rs, msgs.length ≤ fuel → (w.noRunningStatus = true ∨ rs = w.runningStatus) →
        midireader.readAll fuel rs bytes = .ok msgs := by
  induction msgs with
  | nil =>
    intro w
    exact ⟨[], by simp, by simp, fun fuel rs _ _ => by simp [midireader.readAll]⟩
  | cons m ms ih =>
    intro w
    have hmm : isChannelMessage m = true := hm m (by simp)
    have hms : ∀ x ∈ ms, isChannelMessage x = true := fun x hx => hm x (by simp [hx])
    cases m with
    | nil => simp [isChannelMessage] at hmm
    | cons status data =>
      obtain ⟨h1, h2, h3, h4⟩ := isChannelMessage_cons status data hmm
      by_cases hrun : (!w.noRunningStatus && w.runningStatus == some status) = true
      · have hw : w.Write (status :: data) = { w with output := w.output ++ data } := by
          simp only [midiwriter.Writer.Write, h1, h2, and_self, if_true, hrun]
        obtain ⟨bytes, hb, hl, hr⟩ := ih hms { w with output := w.output ++ data }
        obtain ⟨d, tail, hdata, hread⟩ := readMessage_running status data bytes hmm
        refine ⟨data ++ bytes, ?_, ?_, ?_⟩
        · rw [List.foldl_cons, hw, hb, List.append_assoc]
        · simp only [List.length_cons, List.length_append]
          have := dataLength_pos status
          omega
        · intro fuel rs hf hrs
          have hno : w.noRunningStatus = false := by
            cases hn : w.noRunningStatus <;> simp_all
          have hst : w.runningStatus = some status := by
            simp [hno] at hrun
            exact hrun
          have hrs2 : rs = some status := by
            rcases hrs with h | h
            · simp [hno] at h
            · rw [h, hst]
          cases fuel with
          | zero => simp at hf
          | succ fuel =>
            subst hrs2
            rw [hdata, List.cons_append]
            simp only [midireader.readAll]
            rw [hread]
            simp only []
            rw [hr fuel (some status) (by simpa using hf) (Or.inr hst.symm)]
            rw [hdata]
      · have hw : w.Write (status :: data)
            = { w with runningStatus := some status, output := w.output ++ status :: data } := by
          simp only [midiwriter.Writer.Write, h1, h2, and_self, if_true, hrun]
          simp
        obtain ⟨bytes, hb, hl, hr⟩ :=
          ih hms { w with runningStatus := some status, output := w.output ++ status :: data }
        refine ⟨status :: data ++ bytes, ?_, ?_, ?_⟩
        · rw [List.foldl_cons, hw, hb, List.append_assoc]
        · simp only [List.length_cons, List.length_append]
          omega
        · intro fuel rs hf hrs
          cases fuel with
          | zero => simp at hf
          | succ fuel =>
            rw [List.cons_append]
            simp only [midireader.readAll]
            rw [readMessage_full rs status data bytes hmm]
            simp only []
            rw [hr fuel (some status) (by simpa using hf) (Or.inr rfl)]

/-- C17: running-status encoding followed by running-status decoding is the
identity on sequences of channel messages: for every finite sequence of channel
messages written through the running-status writer, reading the produced bytes
back with the running-status reader yields the same messages (the same number of
them, each with the same status byte, hence type and channel, and the same data
bytes) in the same order. -/
theorem write_read_roundtrip (msgs : List Message)
    (hm : ∀ m ∈ msgs, isChannelMessage m = true) :
    midireader.ReadAll (msgs.foldl midiwriter.Writer.Write midiwriter.New).output
      = .ok msgs := by
  obtain ⟨bytes, hb, hl, hr⟩ := write_read_aux msgs hm midiwriter.New
  have hout : (msgs.foldl midiwriter.Writer.Write midiwriter.New).output = bytes := by
    rw [hb]; rfl
  rw [hout]
  exact hr bytes.length none hl (Or.inr rfl)

/-- The round trip of C17 at the messages of the benchmark: NoteOn key 20
velocity 100, NoteOff key 20, NoteOn key 23 velocity 70 and NoteOff key 23 on
channel 1 are written as the nine bytes 91 14 64 14 00 17 46 17 00 and read back
as the four messages. -/
theorem write_read_roundtrip_witness :
    ([channel.NoteOn 1 20 100, channel.NoteOff 1 20, channel.NoteOn 1 23 70,
        channel.NoteOff 1 23].foldl midiwriter.Writer.Write midiwriter.New).output
      = [0x91, 0x14, 0x64, 0x14, 0x00, 0x17, 0x46, 0x17, 0x00] ∧
    midireader.ReadAll
      ([channel.NoteOn 1 20 100, channel.NoteOff 1 20, channel.NoteOn 1 23 70,
        channel.NoteOff 1 23].foldl midiwriter.Writer.Write midiwriter.New).output
      = .ok [[0x91, 0x14, 0x64], [0x91, 0x14, 0x00], [0x91, 0x17, 0x46], [0x91, 0x17, 0x00]] :=
  ⟨by decide,
   write_read_roundtrip [channel.NoteOn 1 20 100, channel.NoteOff 1 20,
     channel.NoteOn 1 23 70, channel.NoteOff 1 23] (by decide)⟩

/-! ## Reading SMF files -/

theorem setHeader_errSMF (r : mid.Reader) (hd : mid.Header) :
    (r.setHeader hd).errSMF = r.errSMF := by
  obtain ⟨format, tracks, tf⟩ := hd
  cases tf <;> cases h : r.hasSMFHeader <;> simp [mid.Reader.setHeader, h]

/-- The outcomes of ReadSMF: if reading the header fails it returns that error;
otherwise it returns nil when dispatching ends with nil, io.EOF or
smf.ErrFinished, and returns the dispatch error unchanged in every other case.
The only way for smf.ErrFinished to reach the caller is a header read that
failed with it. -/
theorem readSMF_outcome (r : mid.Reader) (headerErr : Option mid.Error) (hd : mid.Header)
    (dispatchErr : Option mid.Error) :
    (headerErr ≠ none → (r.ReadSMF headerErr hd dispatchErr).2 = headerErr) ∧
    (headerErr = none →
      (dispatchErr = none ∨ dispatchErr = some mid.Error.EOF ∨
        dispatchErr = some mid.Error.ErrFinished) →
      (r.ReadSMF headerErr hd dispatchErr).2 = none) ∧
    (headerErr = none → dispatchErr ≠ none → dispatchErr ≠ some mid.Error.EOF →
      dispatchErr ≠ some mid.Error.ErrFinished →
      (r.ReadSMF headerErr hd dispatchErr).2 = dispatchErr) ∧
    (headerErr ≠ some mid.Error.ErrFinished →
      (r.ReadSMF headerErr hd dispatchErr).2 ≠ some mid.Error.ErrFinished) := by
  have hs : (r.start.setHeader hd).errSMF = none := by rw [setHeader_errSMF]; rfl
  refine ⟨?_, ?_, ?_, ?_⟩
  · intro h
    simp [mid.Reader.ReadSMF, h]
  · rintro rfl (rfl | rfl | rfl) <;> simp [mid.Reader.ReadSMF, mid.Reader.readSMF, hs]
  · rintro rfl h1 h2 h3
    simp [mid.Reader.ReadSMF, mid.Reader.readSMF, h2, h3]
  · intro h
    cases headerErr with
    | some e => simpa [mid.Reader.ReadSMF] using h
    | none =>
      by_cases h2 : dispatchErr = some mid.Error.EOF
      · subst h2
        simp [mid.Reader.ReadSMF, mid.Reader.readSMF, hs]
      · by_cases h3 : dispatchErr = some mid.Error.ErrFinished
        · subst h3
          simp [mid.Reader.ReadSMF, mid.Reader.readSMF]
        · simp [mid.Reader.ReadSMF, mid.Reader.readSMF, h2, h3]

/-- The outcomes of ReadSMF on a reader that still holds io.EOF from an earlier
read: a header failure is returned as it is, a dispatch that ends with
smf.ErrFinished or io.EOF yields nil, and any other dispatch error is returned
unchanged. -/
theorem readSMF_outcome_witness :
    (mid.Reader.ReadSMF ⟨some mid.Error.EOF, ⟨1, 2, 3⟩, ⟨0, 1, .MetricTicks 96⟩, 96, true, []⟩
      (some (mid.Error.other 7)) ⟨1, 4, .MetricTicks 480⟩ none).2 = some (mid.Error.other 7) ∧
    (mid.Reader.ReadSMF ⟨some mid.Error.EOF, ⟨1, 2, 3⟩, ⟨0, 1, .MetricTicks 96⟩, 96, true, []⟩
      none ⟨1, 4, .MetricTicks 480⟩ (some mid.Error.ErrFinished)).2 = none ∧
    (mid.Reader.ReadSMF ⟨some mid.Error.EOF, ⟨1, 2, 3⟩, ⟨0, 1, .MetricTicks 96⟩, 96, true, []⟩
      none ⟨1, 4, .MetricTicks 480⟩ (some (mid.Error.other 7))).2 = some (mid.Error.other 7) ∧
    (mid.Reader.ReadSMF ⟨some mid.Error.EOF, ⟨1, 2, 3⟩, ⟨0, 1, .MetricTicks 96⟩, 96, true, []⟩
      none ⟨1, 4, .MetricTicks 480⟩ (some mid.Error.EOF)).2 ≠ some mid.Error.ErrFinished :=
  ⟨(readSMF_outcome _ (some (mid.Error.other 7)) _ none).1 (by decide),
   (readSMF_outcome _ none _ (some mid.Error.ErrFinished)).2.1 rfl (Or.inr (Or.inr rfl)),
   (readSMF_outcome _ none _ (some (mid.Error.other 7))).2.2.1 rfl (by decide) (by decide)
     (by decide),
   (readSMF_outcome _ none _ (some mid.Error.EOF)).2.2.2 (by decide)⟩

/-- C19 fails on the code: when the file opens (`ReadFile` returns nil) and
dispatching its messages ends with an error other than smf.ErrFinished and
io.EOF, the reader records the error in errSMF and ReadSMFFile returns nil all
the same, where ReadSMF, on the same dispatch error, returns it. -/
theorem readSMFFile_swallows_errSMF (r : mid.Reader) (hd : mid.Header) (code : Nat) :
    (r.ReadSMFFile none (some (some (mid.Error.other code)))).1.errSMF
      = some (mid.Error.other code) ∧
    (r.ReadSMFFile none (some (some (mid.Error.other code)))).2 = none ∧
    (r.ReadSMF none hd (some (mid.Error.other code))).2 = some (mid.Error.other code) := by
  refine ⟨?_, ?_, ?_⟩
  · simp [mid.Reader.ReadSMFFile, mid.Reader.readSMF]
  · simp [mid.Reader.ReadSMFFile, mid.Reader.readSMF]
  · simp [mid.Reader.ReadSMF, mid.Reader.readSMF]

/-- C20: PostHeader(n) and InsideTrack(n) fail (panic) if and only if n = 0, and
for every n >= 1 both return an option without failing; the failure is that of
the constructor, whose result, when there is one, is a total function on
readers. -/
theorem postHeader_insideTrack_panic (n : Nat) :
    (smfreader.PostHeader n = none ↔ n = 0) ∧
    (smfreader.InsideTrack n = none ↔ n = 0) ∧
    ((smfreader.PostHeader n).isSome = true ↔ 1 ≤ n) ∧
    ((smfreader.InsideTrack n).isSome = true ↔ 1 ≤ n) := by
  unfold smfreader.PostHeader smfreader.InsideTrack
  by_cases h : n = 0
  · subst h
    simp
  · have h1 : 1 ≤ n := Nat.pos_of_ne_zero h
    simp [h, h1]

/-- C21: for every n >= 1 and every reader r, PostHeader(n) (respectively
InsideTrack(n)) returns an option that, applied to r, sets NumTracks to n,
headerIsRead to true and state to stateExpectChunk (respectively
stateExpectTrackEvent), and leaves every other field of r (logger,
readNoteOffPedantic, failOnUnknownChunks) unchanged. -/
theorem postHeader_insideTrack_apply (n : Nat) (hn : 1 ≤ n) (r : smfreader.reader) :
    (∃ o, smfreader.PostHeader n = some o ∧
      (o r).NumTracks = n ∧ (o r).headerIsRead = true ∧
      (o r).state = smfreader.State.stateExpectChunk ∧ (o r).logger = r.logger ∧
      (o r).readNoteOffPedantic = r.readNoteOffPedantic ∧
      (o r).failOnUnknownChunks = r.failOnUnknownChunks) ∧
    (∃ o, smfreader.InsideTrack n = some o ∧
      (o r).NumTracks = n ∧ (o r).headerIsRead = true ∧
      (o r).state = smfreader.State.stateExpectTrackEvent ∧ (o r).logger = r.logger ∧
      (o r).readNoteOffPedantic = r.readNoteOffPedantic ∧
      (o r).failOnUnknownChunks = r.failOnUnknownChunks) := by
  have h : (n == 0) = false := by
    cases n with
    | zero => simp at hn
    | succ k => rfl
  constructor
  · exact ⟨_, by simp only [smfreader.PostHeader, h]; rfl, rfl, rfl, rfl, rfl, rfl, rfl⟩
  · exact ⟨_, by simp only [smfreader.InsideTrack, h]; rfl, rfl, rfl, rfl, rfl, rfl, rfl⟩

/-- The statement of C21 at PostHeader(4) and InsideTrack(4) applied to a reader
in its initial state that has a logger and both flags set. -/
theorem postHeader_insideTrack_apply_witness :
    (smfreader.PostHeader 4).map
        (fun o => o ⟨some 1, true, true, 0, smfreader.State.stateExpectHeader, false⟩)
      = some ⟨some 1, true, true, 4, smfreader.State.stateExpectChunk, true⟩ ∧
    (smfreader.InsideTrack 4).map
        (fun o => o ⟨some 1, true, true, 0, smfreader.State.stateExpectHeader, false⟩)
      = some ⟨some 1, true, true, 4, smfreader.State.stateExpectTrackEvent, true⟩ := by
  obtain ⟨⟨o1, h1, a1, a2, a3, a4, a5, a6⟩, ⟨o2, h2, b1, b2, b3, b4, b5, b6⟩⟩ :=
    postHeader_insideTrack_apply 4 (by decide)
      ⟨some 1, true, true, 0, smfreader.State.stateExpectHeader, false⟩
  rw [h1, h2]
  constructor
  · show some (o1 _) = _
    congr 1
    cases hr : o1 ⟨some 1, true, true, 0, smfreader.State.stateExpectHeader, false⟩
    simp_all
  · show some (o2 _) = _
    congr 1
    cases hr : o2 ⟨some 1, true, true, 0, smfreader.State.stateExpectHeader, false⟩
    simp_all

/-- GetNoteStart and GetNoteEnd apart from truncated messages: for every
message m that is a NoteOnMsg or a NoteOffMsg and holds the bytes m[0], m[1] and
m[2], exactly one of GetNoteStart(m) and GetNoteEnd(m) returns true, and for
every other message both return false. -/
theorem noteStart_noteEnd_partition (m : Message) (channel key velocity : Nat) :
    (m.Is NoteOnMsg = false → m.Is NoteOffMsg = false →
      (m.GetNoteStart channel key velocity).map Prod.fst = some false ∧
      (m.GetNoteEnd channel key).map Prod.fst = some false) ∧
    (∀ b0 b1 b2, m[0]? = some b0 → m[1]? = some b1 → m[2]? = some b2 →
      (m.Is NoteOnMsg = true ∨ m.Is NoteOffMsg = true) →
      ∃ s e, (m.GetNoteStart channel key velocity).map Prod.fst = some s ∧
        (m.GetNoteEnd channel key).map Prod.fst = some e ∧
        ((s = true ∧ e = false) ∨ (s = false ∧ e = true))) := by
  constructor
  · intro hon hoff
    simp [Message.GetNoteStart, Message.GetNoteEnd, hon, hoff]
  · intro b0 b1 b2 h0 h1 h2 hnote
    cases hon : m.Is NoteOnMsg
    · have hoff : m.Is NoteOffMsg = true := by simpa [hon] using hnote
      exact ⟨false, true, by simp [Message.GetNoteStart, hon],
        by simp [Message.GetNoteEnd, hon, hoff, h0, h1, h2], Or.inr ⟨rfl, rfl⟩⟩
    · have hoff : m.Is NoteOffMsg = false := by
        cases hoff : m.Is NoteOffMsg
        · rfl
        · exact absurd (noteOff_not_noteOn m hoff) (by simp [hon])
      by_cases hv : b2 &&& 0x7F = 0
      · exact ⟨false, true,
          by simp [Message.GetNoteStart, hon, h0, h1, h2, ParseTwoUint7, hv],
          by simp [Message.GetNoteEnd, hon, hoff, h0, h1, h2, ParseTwoUint7, hv],
          Or.inr ⟨rfl, rfl⟩⟩
      · exact ⟨true, false,
          by simp [Message.GetNoteStart, hon, h0, h1, h2, ParseTwoUint7, hv],
          by simp [Message.GetNoteEnd, hon, hoff, h0, h1, h2, ParseTwoUint7, hv],
          Or.inl ⟨rfl, rfl⟩⟩

/-- GetNoteStart and GetNoteEnd at the complete NoteOn 90 3D 64, which only
GetNoteStart matches, and at the control change B8 07 6E, which neither matches. -/
theorem noteStart_noteEnd_partition_witness :
    (Message.GetNoteStart [0xB8, 0x07, 0x6E] 0 0 0).map Prod.fst = some false ∧
    (Message.GetNoteEnd [0xB8, 0x07, 0x6E] 0 0).map Prod.fst = some false ∧
    ∃ s e, (Message.GetNoteStart [0x90, 0x3D, 0x64] 0 0 0).map Prod.fst = some s ∧
      (Message.GetNoteEnd [0x90, 0x3D, 0x64] 0 0).map Prod.fst = some e ∧
      ((s = true ∧ e = false) ∨ (s = false ∧ e = true)) :=
  ⟨((noteStart_noteEnd_partition [0xB8, 0x07, 0x6E] 0 0 0).1 (by decide) (by decide)).1,
   ((noteStart_noteEnd_partition [0xB8, 0x07, 0x6E] 0 0 0).1 (by decide) (by decide)).2,
   (noteStart_noteEnd_partition [0x90, 0x3D, 0x64] 0 0 0).2 0x90 0x3D 0x64 rfl rfl rfl
     (Or.inl (by decide))⟩

theorem and_0F_le (b : Nat) : b &&& 0x0F ≤ 15 := Nat.and_le_right

theorem ParsePitchWheelVals_range (b1 b2 : Nat) :
    (ParsePitchWheelVals b1 b2).2 ≤ 16383 ∧ -8192 ≤ (ParsePitchWheelVals b1 b2).1 ∧
    (ParsePitchWheelVals b1 b2).1 ≤ 8191 := by
  have h1 := and_7F_le b1
  have h2 := and_7F_le b2
  have hval := ParsePitchWheelVals_abs b1 b2
  have hrel : (ParsePitchWheelVals b1 b2).1 = ((ParsePitchWheelVals b1 b2).2 : Int) - 8192 := rfl
  rw [hrel, hval]
  omega

/-- C25: every value an extractor yields is in range whatever the message bytes
are (even when a data byte has its high bit set): channel is at most 15, key,
velocity, pressure, controller, value, program, MTC quarter frame and song number
are at most 127, and the SPP and absolute pitch values are at most 16383 (the
relative pitch lies in [-8192, 8191]). -/
theorem extracted_values_in_range (m : Message) (a b c : Nat) (rel : Option Int)
    (abs : Option Nat) :
    (∀ r, m.GetNoteOn a b c = some r → r.1 = true →
      r.2.1 ≤ 15 ∧ r.2.2.1 ≤ 127 ∧ r.2.2.2 ≤ 127) ∧
    (∀ r, m.GetNoteStart a b c = some r → r.1 = true →
      r.2.1 ≤ 15 ∧ r.2.2.1 ≤ 127 ∧ r.2.2.2 ≤ 127) ∧
    (∀ r, m.GetNoteOff a b c = some r → r.1 = true →
      r.2.1 ≤ 15 ∧ r.2.2.1 ≤ 127 ∧ r.2.2.2 ≤ 127) ∧
    (∀ r, m.GetNoteEnd a b = some r → r.1 = true → r.2.1 ≤ 15 ∧ r.2.2 ≤ 127) ∧
    (∀ r, m.GetPolyAfterTouch a b c = some r → r.1 = true →
      r.2.1 ≤ 15 ∧ r.2.2.1 ≤ 127 ∧ r.2.2.2 ≤ 127) ∧
    (∀ r, m.GetAfterTouch a b = some r → r.1 = true → r.2.1 ≤ 15 ∧ r.2.2 ≤ 127) ∧
    (∀ r, m.GetControlChange a b c = some r → r.1 = true →
      r.2.1 ≤ 15 ∧ r.2.2.1 ≤ 127 ∧ r.2.2.2 ≤ 127) ∧
    (∀ r, m.GetProgramChange a b = some r → r.1 = true → r.2.1 ≤ 15 ∧ r.2.2 ≤ 127) ∧
    (∀ r, m.GetPitchBend a rel abs = some r → r.1 = true →
      r.2.1 ≤ 15 ∧ (∀ v ∈ r.2.2.1, -8192 ≤ v ∧ v ≤ 8191) ∧ ∀ v ∈ r.2.2.2, v ≤ 16383) ∧
    (∀ r, m.GetMTC a = some r → r.1 = true → r.2 ≤ 127) ∧
    (∀ r, m.GetSongSelect a = some r → r.1 = true → r.2 ≤ 127) ∧
    (∀ r, m.GetSPP a = some r → r.1 = true → r.2 ≤ 16383) ∧
    (∀ r, m.GetChannel a = some r → r.1 = true → r.2 ≤ 15) := by
  have c15 := and_0F_le
  have d127 := and_7F_le
  refine ⟨?_, ?_, ?_, ?_, ?_, ?_, ?_, ?_, ?_, ?_, ?_, ?_, ?_⟩
  · intro r hr ht
    unfold Message.GetNoteOn at hr
    cases hIs : m.Is NoteOnMsg <;> cases h0 : m[0]? <;> cases h1 : m[1]? <;>
      cases h2 : m[2]? <;> simp [hIs, h0, h1, h2] at hr <;> subst hr <;>
      first | (simp at ht; done) | exact ⟨c15 _, d127 _, d127 _⟩
  · intro r hr ht
    unfold Message.GetNoteStart at hr
    cases hIs : m.Is NoteOnMsg <;> cases h0 : m[0]? <;> cases h1 : m[1]? <;>
      cases h2 : m[2]? <;> simp [hIs, h0, h1, h2] at hr <;>
      first
      | (subst hr; simp at ht)
      | (split at hr <;> simp at hr <;> subst hr <;>
          first | (simp at ht; done) | exact ⟨c15 _, d127 _, d127 _⟩)
  · intro r hr ht
    unfold Message.GetNoteOff at hr
    cases hIs : m.Is NoteOffMsg <;> cases h0 : m[0]? <;> cases h1 : m[1]? <;>
      cases h2 : m[2]? <;> simp [hIs, h0, h1, h2] at hr <;> subst hr <;>
      first | (simp at ht; done) | exact ⟨c15 _, d127 _, d127 _⟩
  · intro r hr ht
    unfold Message.GetNoteEnd at hr
    cases hOn : m.Is NoteOnMsg <;> cases hOff : m.Is NoteOffMsg <;> cases h0 : m[0]? <;>
      cases h1 : m[1]? <;> cases h2 : m[2]? <;> simp [hOn, hOff, h0, h1, h2] at hr <;>
      subst hr <;> first | (simp at ht; done) | exact ⟨c15 _, d127 _⟩
  · intro r hr ht
    unfold Message.GetPolyAfterTouch at hr
    cases hIs : m.Is PolyAfterTouchMsg <;> cases h0 : m[0]? <;> cases h1 : m[1]? <;>
      cases h2 : m[2]? <;> simp [hIs, h0, h1, h2] at hr <;> subst hr <;>
      first | (simp at ht; done) | exact ⟨c15 _, d127 _, d127 _⟩
  · intro r hr ht
    unfold Message.GetAfterTouch at hr
    cases hIs : m.Is AfterTouchMsg <;> cases h0 : m[0]? <;> cases h1 : m[1]? <;>
      simp [hIs, h0, h1] at hr <;> subst hr <;>
      first | (simp at ht; done) | exact ⟨c15 _, d127 _⟩
  · intro r hr ht
    unfold Message.GetControlChange at hr
    cases hIs : m.Is ControlChangeMsg <;> cases h0 : m[0]? <;> cases h1 : m[1]? <;>
      cases h2 : m[2]? <;> simp [hIs, h0, h1, h2] at hr <;> subst hr <;>
      first | (simp at ht; done) | exact ⟨c15 _, d127 _, d127 _⟩
  · intro r hr ht
    unfold Message.GetProgramChange at hr
    cases hIs : m.Is ProgramChangeMsg <;> cases h0 : m[0]? <;> cases h1 : m[1]? <;>
      simp [hIs, h0, h1] at hr <;> subst hr <;>
      first | (simp at ht; done) | exact ⟨c15 _, d127 _⟩
  · intro r hr ht
    unfold Message.GetPitchBend at hr
    cases hIs : m.Is PitchBendMsg <;> cases h0 : m[0]? <;> cases h1 : m[1]? <;>
      cases h2 : m[2]? <;> simp [hIs, h0, h1, h2] at hr <;> subst hr <;>
      first
      | (simp at ht; done)
      | (rename_i b0 b1 b2
         have hp := ParsePitchWheelVals_range b1 b2
         refine ⟨c15 _, ?_, ?_⟩
         · intro v hv
           cases rel <;> simp at hv
           subst hv
           exact ⟨hp.2.1, hp.2.2⟩
         · intro v hv
           cases abs <;> simp at hv
           subst hv
           exact hp.1)
  · intro r hr ht
    unfold Message.GetMTC at hr
    cases hIs : m.Is MTCMsg <;> cases h1 : m[1]? <;> simp [hIs, h1] at hr <;> subst hr <;>
      first | (simp at ht; done) | exact d127 _
  · intro r hr ht
    unfold Message.GetSongSelect at hr
    cases hIs : m.Is SongSelectMsg <;> cases h1 : m[1]? <;> simp [hIs, h1] at hr <;>
      subst hr <;> first | (simp at ht; done) | exact d127 _
  · intro r hr ht
    unfold Message.GetSPP at hr
    cases hIs : m.Is SPPMsg <;> cases h1 : m[1]? <;> cases h2 : m[2]? <;>
      simp [hIs, h1, h2] at hr <;> subst hr <;>
      first | (simp at ht; done) | exact (ParsePitchWheelVals_range _ _).1
  · intro r hr ht
    unfold Message.GetChannel at hr
    cases hIs : m.Is ChannelMsg <;> cases h0 : m[0]? <;> simp [hIs, h0] at hr <;>
      subst hr <;> first | (simp at ht; done) | exact c15 _

/-- The statement of C25 at messages whose data bytes have the high bit set:
the NoteOn 9F FF FF yields channel 15, key 127 and velocity 127, the pitch bend
EF FF FF the absolute value 16383, and the song position F2 FF FF the value
16383. -/
theorem extracted_values_in_range_witness :
    Message.GetNoteOn [0x9F, 0xFF, 0xFF] 0 0 0 = some (true, 15, 127, 127) ∧
    (15 ≤ 15 ∧ 127 ≤ 127 ∧ 127 ≤ 127) ∧
    Message.GetPitchBend [0xEF, 0xFF, 0xFF] 0 (some 0) (some 0)
      = some (true, 15, some 8191, some 16383) ∧
    (15 ≤ 15 ∧ (∀ v ∈ some (8191 : Int), -8192 ≤ v ∧ v ≤ 8191) ∧
      ∀ v ∈ some 16383, v ≤ 16383) ∧
    Message.GetSPP [0xF2, 0xFF, 0xFF] 0 = some (true, 16383) ∧ 16383 ≤ 16383 :=
  ⟨rfl,
   (extracted_values_in_range [0x9F, 0xFF, 0xFF] 0 0 0 none none).1 (true, 15, 127, 127)
     rfl rfl,
   rfl,
   (extracted_values_in_range [0xEF, 0xFF, 0xFF] 0 0 0 (some 0) (some 0)).2.2.2.2.2.2.2.2.1
     (true, 15, some 8191, some 16383) rfl rfl,
   rfl,
   (extracted_values_in_range [0xF2, 0xFF, 0xFF] 0 0 0 none none).2.2.2.2.2.2.2.2.2.2.2.1
     (true, 16383) rfl rfl⟩

/-- GetSPP apart from truncated messages: for every message m with m.Is(SPPMsg)
holding the bytes m[1] and m[2], it returns true and yields
(m[1] & 0x7F) * 128 + (m[2] & 0x7F): the first data byte supplies the most significant 7 bits, which is the reverse of the byte
order GetPitchBend uses, whose absolute value on a pitch bend message p is
(p[2] & 0x7F) * 128 + (p[1] & 0x7F). -/
theorem getSPP_spec (m p : Message) (b1 b2 p0 p1 p2 spp channel : Nat) (abs : Nat)
    (h1 : m[1]? = some b1) (h2 : m[2]? = some b2) (his : m.Is SPPMsg = true)
    (hp0 : p[0]? = some p0) (hp1 : p[1]? = some p1) (hp2 : p[2]? = some p2)
    (hpis : p.Is PitchBendMsg = true) :
    m.GetSPP spp = some (true, (b1 &&& 0x7F) * 128 + (b2 &&& 0x7F)) ∧
    p.GetPitchBend channel none (some abs)
      = some (true, p0 &&& 0x0F, none, some ((p2 &&& 0x7F) * 128 + (p1 &&& 0x7F))) := by
  constructor
  · simp [Message.GetSPP, his, h1, h2, ParsePitchWheelVals_abs]
  · simp [Message.GetPitchBend, hpis, hp0, hp1, hp2, ParseStatus, ParsePitchWheelVals_abs]

/-- GetSPP at the complete song position F2 01 02, which yields
1 * 128 + 2 = 130, and at the pitch bend E0 01 02, which yields
2 * 128 + 1 = 257. -/
theorem getSPP_spec_witness :
    Message.GetSPP [0xF2, 0x01, 0x02] 0 = some (true, 130) ∧
    Message.GetPitchBend [0xE0, 0x01, 0x02] 0 none (some 0) = some (true, 0, none, some 257) :=
  getSPP_spec [0xF2, 0x01, 0x02] [0xE0, 0x01, 0x02] 0x01 0x02 0xE0 0x01 0x02 0 0 0 rfl rfl
    (by decide) rfl rfl rfl (by decide)

/-! ## Positions -/

theorem emitTrack_length (track ticks : Nat) (events : List (Nat × Message)) :
    (mid.emitTrack track ticks events).length = events.length := by
  induction events generalizing ticks with
  | nil => rfl
  | cons e rest ih =>
    obtain ⟨delta, msg⟩ := e
    simp [mid.emitTrack, ih]

theorem emitTrack_getElem (track : Nat) (events : List (Nat × Message)) :
    ∀ (ticks j delta : Nat) (msg : Message), events[j]? = some (delta, msg) →
      (mid.emitTrack track ticks events)[j]?
        = some ({ Track := track,
                  AbsoluteTicks := ticks + ((events.take (j + 1)).map Prod.fst).sum,
                  DeltaTicks := delta }, msg) := by
  induction events with
  | nil => intro ticks j delta msg h; simp at h
  | cons e rest ih =>
    intro ticks j delta msg h
    obtain ⟨d, ms⟩ := e
    cases j with
    | zero =>
      simp at h
      obtain ⟨rfl, rfl⟩ := h
      simp [mid.emitTrack]
    | succ j =>
      simp at h
      have := ih (ticks + d) j delta msg h
      simp [mid.emitTrack, this, Nat.add_assoc]

theorem emitTracks_getElem (tracks : List (List (Nat × Message))) :
    ∀ (first i : Nat) (events : List (Nat × Message)), tracks[i]? = some events →
      (mid.emitTracks first tracks)[i]? = some (mid.emitTrack (first + i) 0 events) := by
  induction tracks with
  | nil => intro first i events h; simp at h
  | cons t rest ih =>
    intro first i events h
    cases i with
    | zero =>
      simp at h
      subst h
      simp [mid.emitTracks]
    | succ i =>
      simp at h
      have := ih (first + 1) i events h
      simp [mid.emitTracks, this, Nat.add_assoc, Nat.add_comm 1 i]

theorem emitTracks_length (first : Nat) (tracks : List (List (Nat × Message))) :
    (mid.emitTracks first tracks).length = tracks.length := by
  induction tracks generalizing first with
  | nil => rfl
  | cons t rest ih => simp [mid.emitTracks, ih]

/-- C22: for every event emitted while reading an SMF file, the absolute
position equals the sum of the delta times of all events of the same track up to
and including that event, the reported delta is the event's own delta (the
accumulator restarts at 0 at the beginning of every track), and the track number
is the zero-based order of the track in the file; this holds for the event at
every place j of every track i, and every emitted event is one of these. -/
theorem positions_spec (tracks : List (List (Nat × Message))) :
    (∀ (i j delta : Nat) (events : List (Nat × Message)) (msg : Message),
      tracks[i]? = some events → events[j]? = some (delta, msg) →
      ((mid.emitTracks 0 tracks)[i]?.bind fun emitted => emitted[j]?)
        = some ({ Track := i, AbsoluteTicks := ((events.take (j + 1)).map Prod.fst).sum,
                  DeltaTicks := delta }, msg)) ∧
    (∀ e ∈ mid.emitFile tracks, ∃ (i j : Nat) (events : List (Nat × Message)),
      tracks[i]? = some events ∧ events[j]? = some (e.1.DeltaTicks, e.2) ∧
      e.1.Track = i ∧ e.1.AbsoluteTicks = ((events.take (j + 1)).map Prod.fst).sum) := by
  constructor
  · intro i j delta events msg hi hj
    have h1 := emitTracks_getElem tracks 0 i events hi
    have h2 := emitTrack_getElem (0 + i) events 0 j delta msg hj
    simp only [Nat.zero_add] at h1 h2
    simp only [h1, Option.some_bind, h2]
  · intro e he
    unfold mid.emitFile at he
    rw [List.mem_flatten] at he
    obtain ⟨emitted, hmem, hin⟩ := he
    obtain ⟨i, hi, hget⟩ := List.getElem_of_mem hmem
    rw [emitTracks_length] at hi
    have hti : tracks[i]? = some tracks[i] := List.getElem?_eq_getElem hi
    have h1 := emitTracks_getElem tracks 0 i tracks[i] hti
    have hem : emitted = mid.emitTrack (0 + i) 0 tracks[i] := by
      have h3 : (mid.emitTracks 0 tracks)[i]? = some emitted := by
        rw [List.getElem?_eq_getElem (by rw [emitTracks_length]; exact hi), hget]
      rw [h1] at h3
      exact (Option.some.inj h3).symm
    subst hem
    obtain ⟨j, hj, hgetj⟩ := List.getElem_of_mem hin
    rw [emitTrack_length] at hj
    have hevj : tracks[i][j]? = some (tracks[i][j].1, tracks[i][j].2) :=
      List.getElem?_eq_getElem hj
    have h2 := emitTrack_getElem (0 + i) tracks[i] 0 j _ _ hevj
    have h4 : (mid.emitTrack (0 + i) 0 tracks[i])[j]? = some e := by
      rw [List.getElem?_eq_getElem (by rw [emitTrack_length]; exact hj), hgetj]
    rw [h2] at h4
    have he := (Option.some.inj h4).symm
    subst he
    exact ⟨i, j, tracks[i], hti, hevj, by simp, by simp⟩

/-- The statement of C22 at the first two tracks of `TestReadSMF1`: the third
event of track 1, the NoteOn 90 4C 00 with delta 192, is emitted at the absolute
position 0 + 192 + 192 = 384 of track 1. -/
theorem positions_spec_witness :
    ((mid.emitTracks 0
        [[(0, [0xFF, 0x58, 0x04, 0x04, 0x02, 0x18, 0x08]), (0, [0xFF, 0x51, 0x03, 0x07, 0xA1, 0x20]),
          (384, [0xFF, 0x2F, 0x00])],
         [(0, [0xC0, 0x05]), (192, [0x90, 0x4C, 0x20]), (192, [0x90, 0x4C, 0x00]),
          (0, [0xFF, 0x2F, 0x00])]])[1]?.bind
      fun emitted => emitted[2]?)
      = some ({ Track := 1, AbsoluteTicks := 384, DeltaTicks := 192 }, [0x90, 0x4C, 0x00]) ∧
    ∃ (i j : Nat) (events : List (Nat × Message)),
      ([[(0, [0xFF, 0x58, 0x04, 0x04, 0x02, 0x18, 0x08]), (0, [0xFF, 0x51, 0x03, 0x07, 0xA1, 0x20]),
          (384, [0xFF, 0x2F, 0x00])],
         [(0, [0xC0, 0x05]), (192, [0x90, 0x4C, 0x20]), (192, [0x90, 0x4C, 0x00]),
          (0, [0xFF, 0x2F, 0x00])]] : List (List (Nat × Message)))[i]? = some events ∧
      events[j]? = some (192, [0x90, 0x4C, 0x00]) ∧ 1 = i ∧
      384 = ((events.take (j + 1)).map Prod.fst).sum :=
  ⟨(positions_spec
      [[(0, [0xFF, 0x58, 0x04, 0x04, 0x02, 0x18, 0x08]), (0, [0xFF, 0x51, 0x03, 0x07, 0xA1, 0x20]),
          (384, [0xFF, 0x2F, 0x00])],
         [(0, [0xC0, 0x05]), (192, [0x90, 0x4C, 0x20]), (192, [0x90, 0x4C, 0x00]),
          (0, [0xFF, 0x2F, 0x00])]]).1 1 2 192 _ [0x90, 0x4C, 0x00] rfl rfl,
   (positions_spec
      [[(0, [0xFF, 0x58, 0x04, 0x04, 0x02, 0x18, 0x08]), (0, [0xFF, 0x51, 0x03, 0x07, 0xA1, 0x20]),
          (384, [0xFF, 0x2F, 0x00])],
         [(0, [0xC0, 0x05]), (192, [0x90, 0x4C, 0x20]), (192, [0x90, 0x4C, 0x00]),
          (0, [0xFF, 0x2F, 0x00])]]).2
      ({ Track := 1, AbsoluteTicks := 384, DeltaTicks := 192 }, [0x90, 0x4C, 0x00])
      (by decide)⟩

/-! ## Variable-length quantities -/

theorem bits7 : ∀ x, x < 128 →
    (x ||| 0x80) &&& 0x80 ≠ 0 ∧ (x ||| 0x80) &&& 0x7F = x ∧ x &&& 0x80 = 0 ∧
    x &&& 0x7F = x := by
  decide

/-- The groups `encodeGroups` puts in front of its accumulator: they decode to
the value they encode, are as many as the value needs and no more. -/
theorem encodeGroups_spec (n : Nat) :
    ∀ (fuel : Nat) (acc : List Nat), n ≤ fuel →
      ∃ groups, vlq.encodeGroups fuel n acc = groups ++ acc ∧
        (∀ value consumed tail, vlq.decodeGroups value consumed (groups ++ tail)
          = vlq.decodeGroups (value * 128 ^ groups.length + n) (consumed + groups.length)
              tail) ∧
        n < 128 ^ groups.length ∧ (0 < n → groups ≠ []) ∧
        (groups ≠ [] → 128 ^ (groups.length - 1) ≤ n) ∧ groups.head? ≠ some 0x80 := by
  induction n using Nat.strong_induction_on with
  | _ n ih =>
    intro fuel acc hfuel
    by_cases hn : n = 0
    · subst hn
      refine ⟨[], ?_, ?_, ?_, ?_, ?_, ?_⟩
      · cases fuel <;> simp [vlq.encodeGroups]
      · intro value consumed tail; simp
      · simp
      · simp
      · simp
      · simp
    · cases fuel with
      | zero => omega
      | succ fuel =>
        have hlt : n / 128 < n := Nat.div_lt_self (Nat.pos_of_ne_zero hn) (by decide)
        obtain ⟨groups, hg, hdec, hub, hne, hlb, hhead⟩ :=
          ih (n / 128) hlt fuel ((n % 128 ||| 0x80) :: acc) (by omega)
        have hb := bits7 (n % 128) (Nat.mod_lt n (by decide))
        refine ⟨groups ++ [n % 128 ||| 0x80], ?_, ?_, ?_, ?_, ?_, ?_⟩
        · simp [vlq.encodeGroups, hn, hg]
        · intro value consumed tail
          rw [List.append_assoc, hdec]
          simp only [List.singleton_append, vlq.decodeGroups, hb.1, if_false, hb.2.1,
            List.length_append, List.length_singleton]
          congr 1
          · rw [Nat.pow_succ, ← Nat.mul_assoc]
            have := Nat.div_add_mod n 128
            generalize value * 128 ^ groups.length = x
            omega
        · rw [List.length_append, List.length_singleton, Nat.pow_succ]
          omega
        · intro _; simp
        · intro _
          by_cases hq : n / 128 = 0
          · have : groups = [] := by
              by_contra hgr
              have := hlb hgr
              have hpos : 0 < 128 ^ (groups.length - 1) := Nat.pow_pos (by decide)
              omega
            subst this
            simp
            omega
          · have hgr := hne (Nat.pos_of_ne_zero hq)
            have h1 := hlb hgr
            have hlen : 0 < groups.length := List.length_pos.mpr hgr
            rw [List.length_append, List.length_singleton, Nat.add_sub_cancel]
            have : groups.length = (groups.length - 1) + 1 := by omega
            rw [this, Nat.pow_succ]
            omega
        · by_cases hq : n / 128 = 0
          · have : groups = [] := by
              by_contra hgr
              have := hlb hgr
              have hpos : 0 < 128 ^ (groups.length - 1) := Nat.pow_pos (by decide)
              omega
            subst this
            have hnlt : n < 128 := by omega
            have hmod : n % 128 = n := Nat.mod_eq_of_lt hnlt
            simp only [List.nil_append, List.head?_cons, ne_eq, Option.some.injEq]
            intro h
            have h2 := hb.2.1
            rw [h] at h2
            rw [hmod] at h2
            exact hn h2.symm
          · have hgr := hne (Nat.pos_of_ne_zero hq)
            cases groups with
            | nil => exact absurd rfl hgr
            | cons g gs => simpa using hhead

/-- C23: decodeVLQ(encodeVLQ(n)) returns the value n and consumes exactly the
encoded bytes, whatever follows them, for every n (so for every n in
[0, 0x0FFFFFFF]); the encoding is minimal: 0 encodes as the single byte 0x00 and
128 as 0x81 0x00, no encoding starts with a superfluous continuation byte 0x80,
and an encoding of more than one byte is that of a value too large for one byte
less. -/
theorem vlq_roundtrip (n : Nat) (rest : List Nat) :
    vlq.decodeVLQ (vlq.encodeVLQ n ++ rest) = .ok (n, (vlq.encodeVLQ n).length) ∧
    vlq.encodeVLQ 0 = [0x00] ∧ vlq.encodeVLQ 128 = [0x81, 0x00] ∧
    (vlq.encodeVLQ n).head? ≠ some 0x80 ∧
    n < 128 ^ (vlq.encodeVLQ n).length ∧
    ((vlq.encodeVLQ n).length = 1 ∨ 128 ^ ((vlq.encodeVLQ n).length - 1) ≤ n) := by
  obtain ⟨groups, hg, hdec, hub, hne, hlb, hhead⟩ :=
    encodeGroups_spec (n / 128) n [n % 128] (Nat.div_le_self n 128)
  have henc : vlq.encodeVLQ n = groups ++ [n % 128] := hg
  have hb := bits7 (n % 128) (Nat.mod_lt n (by decide))
  have hdm := Nat.div_add_mod n 128
  refine ⟨?_, by decide, by decide, ?_, ?_, ?_⟩
  · rw [henc, vlq.decodeVLQ, List.append_assoc, hdec]
    simp only [List.singleton_append, vlq.decodeGroups, hb.2.2.1, if_true, hb.2.2.2,
      List.length_append, List.length_singleton, Nat.zero_mul, Nat.zero_add]
    congr 2
    omega
  · rw [henc]
    cases groups with
    | nil =>
      simp only [List.nil_append, List.head?_cons, ne_eq, Option.some.injEq]
      have := Nat.mod_lt n (show 0 < 128 by decide)
      omega
    | cons g gs => simpa using hhead
  · rw [henc, List.length_append, List.length_singleton, Nat.pow_succ]
    omega
  · rw [henc, List.length_append, List.length_singleton, Nat.add_sub_cancel]
    by_cases hgr : groups = []
    · left; simp [hgr]
    · right
      have h1 := hlb hgr
      have hlen : 0 < groups.length := List.length_pos.mpr hgr
      have : groups.length = (groups.length - 1) + 1 := by omega
      rw [this, Nat.pow_succ]
      omega

/-! ## SMF messages -/

/-- C27: for every byte sequence m that is not a meta message (IsMeta(m) is
false), smf.Message(m).String() equals midi.Message(m).String() and
smf.GetType(m) equals midi.GetType(m); for every meta message the type is
GetMetaType of its second byte. -/
theorem smf_message_delegates (f : smf.MetaFuncs) (m : Message) :
    (smf.IsMeta m = false →
      smf.Message.String f m = m.String ∧ smf.GetType f m = some (.midi (getType m))) ∧
    (∀ b1, smf.IsMeta m = true → m[1]? = some b1 →
      smf.GetType f m = some (.meta (f.GetMetaType b1))) := by
  constructor
  · intro h
    simp [smf.Message.String, smf.GetType, h]
  · intro b1 h h1
    simp [smf.GetType, h, h1]

/-- The statement of C27 at the NoteOn 92 30 60, which is not a meta message, and
at the end of track FF 2F 00, whose type is that of its second byte. -/
theorem smf_message_delegates_witness :
    smf.Message.String smf.fixtureFuncs [0x92, 0x30, 0x60]
      = Message.String [0x92, 0x30, 0x60] ∧
    smf.GetType smf.fixtureFuncs [0x92, 0x30, 0x60] = some (.midi NoteOnMsg) ∧
    smf.GetType smf.fixtureFuncs [0xFF, 0x2F, 0x00] = some (.meta .MetaEndOfTrack) :=
  ⟨((smf_message_delegates smf.fixtureFuncs [0x92, 0x30, 0x60]).1 (by decide)).1,
   ((smf_message_delegates smf.fixtureFuncs [0x92, 0x30, 0x60]).1 (by decide)).2,
   (smf_message_delegates smf.fixtureFuncs [0xFF, 0x2F, 0x00]).2 0x2F (by decide) rfl⟩

/-- C28 fails on the code: the NoteOn on channel 2 with key 48 and velocity 96,
the bytes 92 30 60, is rendered by smf.Message.String as the type name followed
by " channel: 2 key: 48 velocity: 96", which, whatever the type name is, is
neither the type name followed by " key: 48 velocity: 96" nor the string
"Channel2Msg & NoteOnMsg key: 48 velocity: 96" of the claim and of
`TestReadSMF0`. -/
theorem smf_noteOn_renders_channel :
    smf.Message.String smf.fixtureFuncs [0x92, 0x30, 0x60]
      = some ((getType [0x92, 0x30, 0x60]).String ++ " channel: 2 key: 48 velocity: 96") ∧
    smf.Message.String smf.fixtureFuncs [0x92, 0x30, 0x60]
      ≠ some ((getType [0x92, 0x30, 0x60]).String ++ " key: 48 velocity: 96") ∧
    smf.Message.String smf.fixtureFuncs [0x92, 0x30, 0x60]
      ≠ some "Channel2Msg & NoteOnMsg key: 48 velocity: 96" ∧
    (∀ name : String,
      name ++ " channel: 2 key: 48 velocity: 96" ≠ name ++ " key: 48 velocity: 96" ∧
      name ++ " channel: 2 key: 48 velocity: 96"
        ≠ "Channel2Msg & NoteOnMsg key: 48 velocity: 96") := by
  refine ⟨by decide, by decide, by decide, fun name => ⟨?_, ?_⟩⟩
  · intro h
    have h2 := congrArg String.data h
    simp only [String.data_append, List.append_cancel_left_eq] at h2
    exact absurd h2 (by decide)
  · intro h
    have h2 := congrArg (fun t => (String.data t).reverse.take 22) h
    simp only [String.data_append, List.reverse_append] at h2
    rw [List.take_append_of_le_length (by decide)] at h2
    exact absurd h2 (by decide)

theorem noteOn_not_meta (m : Message) (h : m.Is NoteOnMsg = true) : smf.IsMeta m = false := by
  cases m with
  | nil => rfl
  | cons b0 rest =>
    by_cases hb : b0 = 0xFF
    · subst hb
      rw [Is_cons] at h
      exact absurd h (by decide)
    · simp [smf.IsMeta, hb]

/-- The rendering of a complete NoteOn: for a NoteOn message m, as read from an
SMF file, holding the bytes m[0], m[1] and m[2], the textual rendering of smf.Message.String is that
of midi.Message.String: the type name followed by
" channel: C key: K velocity: V" with C = m[0] & 0x0F, K = m[1] & 0x7F and
V = m[2] & 0x7F. -/
theorem smf_noteOn_string (f : smf.MetaFuncs) (m : Message) (b0 b1 b2 : Nat)
    (h0 : m[0]? = some b0) (h1 : m[1]? = some b1) (h2 : m[2]? = some b2)
    (hon : m.Is NoteOnMsg = true) :
    smf.Message.String f m
      = some ((getType m).String ++ " channel: " ++ toString (b0 &&& 0x0F) ++ " key: "
          ++ toString (b1 &&& 0x7F) ++ " velocity: " ++ toString (b2 &&& 0x7F)) := by
  have e1 : m.GetNoteOn 0 0 0 = some (true, b0 &&& 0x0F, b1 &&& 0x7F, b2 &&& 0x7F) := by
    simp [Message.GetNoteOn, hon, h0, h1, h2, ParseStatus, ParseTwoUint7]
  simp only [smf.Message.String, noteOn_not_meta m hon]
  unfold Message.String
  simp only [Option.bind_eq_bind, Option.pure_def, Option.some_bind, e1]
  simp

/-- The rendering of the NoteOn 92 30 60 of `TestReadSMF0`: channel 2, key 48,
velocity 96. -/
theorem smf_noteOn_string_witness :
    smf.Message.String smf.fixtureFuncs [0x92, 0x30, 0x60]
      = some "NoteOnMsg channel: 2 key: 48 velocity: 96" :=
  smf_noteOn_string smf.fixtureFuncs [0x92, 0x30, 0x60] 0x92 0x30 0x60 rfl rfl rfl (by decide)

/-- C29: for every meta message whose type is neither tempo nor time signature
nor one of the text types (lyric, marker, copyright, text, cuepoint, device,
instrument, program name, track name), smf.Message.String() is exactly the type
name with nothing appended; a time-signature meta that ScanMeter matches with
numerator N and denominator D renders the type name followed by " meter: N/D".
ScanTempo and ScanMeter are taken to match only messages of the tempo and of the
time signature type. -/
theorem smf_meta_string (f : smf.MetaFuncs) (m : Message) (t : smf.MetaType)
    (hTempo : ∀ x, (f.ScanTempo x).isSome = true →
      smf.GetType f x = some (.meta .MetaTempo))
    (hMeter : ∀ x, (f.ScanMeter x).isSome = true →
      smf.GetType f x = some (.meta .MetaTimeSig))
    (hmeta : smf.IsMeta m = true) (hty : smf.GetType f m = some (.meta t)) :
    (t ≠ .MetaTempo → t ≠ .MetaTimeSig → smf.isTextType (.meta t) = false →
      smf.Message.String f m = some t.String) ∧
    (∀ n d, t = .MetaTimeSig → f.ScanMeter m = some (n, d) →
      smf.Message.String f m
        = some (t.String ++ " meter: " ++ toString n ++ "/" ++ toString d)) := by
  have noTempo : t ≠ .MetaTempo → f.ScanTempo m = none := by
    intro ht
    cases hs : f.ScanTempo m with
    | none => rfl
    | some bpm =>
      have := hTempo m (by simp [hs])
      rw [hty] at this
      simp at this
      exact absurd this ht
  have noMeter : t ≠ .MetaTimeSig → f.ScanMeter m = none := by
    intro ht
    cases hs : f.ScanMeter m with
    | none => rfl
    | some nd =>
      have := hMeter m (by simp [hs])
      rw [hty] at this
      simp at this
      exact absurd this ht
  constructor
  · intro h1 h2 h3
    simp [smf.Message.String, hmeta, hty, noTempo h1, noMeter h2, h3, smf.MidiType.String]
  · intro n d ht hm
    have h1 : t ≠ .MetaTempo := by rw [ht]; decide
    simp [smf.Message.String, hmeta, hty, noTempo h1, hm, smf.MidiType.String]

theorem fixtureFuncs_ScanTempo (x : Message)
    (h : (smf.fixtureFuncs.ScanTempo x).isSome = true) :
    smf.GetType smf.fixtureFuncs x = some (.meta .MetaTempo) := by
  simp only [smf.fixtureFuncs] at h
  split at h
  · rfl
  · simp at h

theorem fixtureFuncs_ScanMeter (x : Message)
    (h : (smf.fixtureFuncs.ScanMeter x).isSome = true) :
    smf.GetType smf.fixtureFuncs x = some (.meta .MetaTimeSig) := by
  simp only [smf.fixtureFuncs] at h
  split at h
  · rfl
  · simp at h

/-- The statement of C29 at the meta events of `TestReadSMF0`: the end of track
FF 2F 00 renders "MetaEndOfTrackMsg" and the time signature FF 58 04 04 02 18 08
renders "MetaTimeSigMsg meter: 4/4". -/
theorem smf_meta_string_witness :
    smf.Message.String smf.fixtureFuncs [0xFF, 0x2F, 0x00] = some "MetaEndOfTrackMsg" ∧
    smf.Message.String smf.fixtureFuncs [0xFF, 0x58, 0x04, 0x04, 0x02, 0x18, 0x08]
      = some "MetaTimeSigMsg meter: 4/4" :=
  ⟨(smf_meta_string smf.fixtureFuncs [0xFF, 0x2F, 0x00] .MetaEndOfTrack
      fixtureFuncs_ScanTempo fixtureFuncs_ScanMeter (by decide) rfl).1
      (by decide) (by decide) rfl,
   (smf_meta_string smf.fixtureFuncs [0xFF, 0x58, 0x04, 0x04, 0x02, 0x18, 0x08] .MetaTimeSig
      fixtureFuncs_ScanTempo fixtureFuncs_ScanMeter (by decide) rfl).2 4 4 rfl rfl⟩

/-- C30: for every message m, IsPlayable(m) is true exactly when
UnknownMsg < m.Type() < firstMetaMsg; in particular it is false for every
message of unknown type, and, in package smf, for every message whose type is a
meta type, where IsPlayable is that of the type of the message. -/
theorem isPlayable_spec (f : smf.MetaFuncs) (m : Message) :
    (m.IsPlayable = true ↔
      (UnknownMsg.rank < (getType m).rank ∧ (getType m).rank < firstMetaMsg)) ∧
    (getType m = UnknownMsg → m.IsPlayable = false) ∧
    (∀ t : smf.MidiType, t.IsPlayable = true ↔
      (UnknownMsg.rank < t.rank ∧ t.rank < firstMetaMsg)) ∧
    (∀ t : smf.MetaType, (smf.MidiType.meta t).IsPlayable = false) ∧
    (∀ b1, smf.IsMeta m = true → m[1]? = some b1 →
      smf.Message.IsPlayable f m = some false) ∧
    (smf.IsMeta m = false → smf.Message.IsPlayable f m = some m.IsPlayable) := by
  have hmeta : ∀ t : smf.MetaType, (smf.MidiType.meta t).IsPlayable = false := by
    intro t
    simp [smf.MidiType.IsPlayable, smf.MidiType.rank, firstMetaMsg]
  refine ⟨?_, ?_, ?_, hmeta, ?_, ?_⟩
  · unfold Message.IsPlayable
    by_cases h : (getType m).rank ≤ UnknownMsg.rank
    · simp [h]
    · simp [h]
      omega
  · intro h
    simp [Message.IsPlayable, h]
  · intro t
    unfold smf.MidiType.IsPlayable
    by_cases h : t.rank ≤ UnknownMsg.rank
    · simp [h]
    · simp [h]
      omega
  · intro b1 h h1
    simp [smf.Message.IsPlayable, smf.GetType, h, h1, hmeta]
  · intro h
    simp [smf.Message.IsPlayable, smf.GetType, h, smf.MidiType.IsPlayable, smf.MidiType.rank,
      Message.IsPlayable]

/-- The statement of C30 at the end of track FF 2F 00, which is not playable, at
the NoteOn 92 30 60, which is, and at the byte sequence 42, whose type is unknown
and which is not. -/
theorem isPlayable_spec_witness :
    smf.Message.IsPlayable smf.fixtureFuncs [0xFF, 0x2F, 0x00] = some false ∧
    smf.Message.IsPlayable smf.fixtureFuncs [0x92, 0x30, 0x60] = some true ∧
    Message.IsPlayable [0x42] = false :=
  ⟨(isPlayable_spec smf.fixtureFuncs [0xFF, 0x2F, 0x00]).2.2.2.2.1 0x2F (by decide) rfl,
   (isPlayable_spec smf.fixtureFuncs [0x92, 0x30, 0x60]).2.2.2.2.2 (by decide),
   (isPlayable_spec smf.fixtureFuncs [0x42]).2.1 (by decide)⟩

/-! ## Sending to a port -/

/-- C31: for every byte slice b, including the empty slice, Send on an output
port that is closed (its stream is nil) returns drivers.ErrPortClosed, writes
nothing to any stream and leaves the port closed: the port after the call is the
port before it. -/
theorem send_closed (o : portmididrv.out) (b : List Nat) (writeErr : Option Nat)
    (h : o.stream = none) :
    o.Send b writeErr = some (o, some portmididrv.SendError.ErrPortClosed) ∧
    o.IsOpen = false := by
  simp [portmididrv.out.Send, portmididrv.out.IsOpen, h]

/-- The statement of C31 at the empty slice and at the NoteOn 92 64 50, sent to a
closed port. -/
theorem send_closed_witness :
    portmididrv.out.Send ⟨0, "out", none⟩ [] none
      = some (⟨0, "out", none⟩, some portmididrv.SendError.ErrPortClosed) ∧
    portmididrv.out.Send ⟨0, "out", none⟩ [0x92, 0x64, 0x50] none
      = some (⟨0, "out", none⟩, some portmididrv.SendError.ErrPortClosed) :=
  ⟨(send_closed ⟨0, "out", none⟩ [] none rfl).1,
   (send_closed ⟨0, "out", none⟩ [0x92, 0x64, 0x50] none rfl).1⟩

/-- C32 fails on the code: on an open port Send reads b[0] without looking at
the length of b, so that the empty slice is indexed out of range (the result
`none`); for a slice of one byte or more the call completes, a missing second or
third byte being passed to the stream as 0. -/
theorem send_open_empty_panics (id : Nat) (name : String)
    (written : List (Nat × Nat × Nat)) (writeErr : Option Nat) (b0 b1 b2 : Nat)
    (rest : List Nat) :
    portmididrv.out.Send ⟨id, name, some written⟩ [] writeErr = none ∧
    portmididrv.out.Send ⟨id, name, some written⟩ [b0] none
      = some (⟨id, name, some (written ++ [(b0, 0, 0)])⟩, none) ∧
    portmididrv.out.Send ⟨id, name, some written⟩ [b0, b1] none
      = some (⟨id, name, some (written ++ [(b0, b1, 0)])⟩, none) ∧
    portmididrv.out.Send ⟨id, name, some written⟩ (b0 :: b1 :: b2 :: rest) none
      = some (⟨id, name, some (written ++ [(b0, b1, b2)])⟩, none) := by
  refine ⟨?_, ?_, ?_, ?_⟩ <;> simp [portmididrv.out.Send]

/-! ## Publishing the header -/

/-- C33 fails on the code: when the file opens and reading its header fails with
an error other than smf.ErrFinished, ReadSMFFileHeader returns the error after
it has set the header of the reader to the header of the failed read and, when
SMFHeader is attached, called it with that header; ReadSMF, on the same failure,
returns the error and leaves the header and the calls of SMFHeader as they
were. -/
theorem readSMFFileHeader_publishes_failed_header (r : mid.Reader) (hd : mid.Header)
    (code : Nat) (dispatchErr : Option mid.Error) :
    (r.ReadSMFFileHeader none (some (mid.Error.other code)) hd).2.2
      = some (mid.Error.other code) ∧
    (r.ReadSMFFileHeader none (some (mid.Error.other code)) hd).1.header = hd ∧
    (r.ReadSMFFileHeader none (some (mid.Error.other code)) hd).1.smfHeaderCalls
      = (if r.hasSMFHeader then hd :: r.smfHeaderCalls else r.smfHeaderCalls) ∧
    (r.ReadSMF (some (mid.Error.other code)) hd dispatchErr).2
      = some (mid.Error.other code) ∧
    (r.ReadSMF (some (mid.Error.other code)) hd dispatchErr).1.header = r.header ∧
    (r.ReadSMF (some (mid.Error.other code)) hd dispatchErr).1.smfHeaderCalls
      = r.smfHeaderCalls := by
  obtain ⟨format, tracks, tf⟩ := hd
  refine ⟨?_, ?_, ?_, ?_, ?_, ?_⟩
  · simp [mid.Reader.ReadSMFFileHeader]
  · cases tf <;> cases h : r.hasSMFHeader <;>
      simp [mid.Reader.ReadSMFFileHeader, mid.Reader.setHeader, mid.Reader.start, h]
  · cases tf <;> cases h : r.hasSMFHeader <;>
      simp [mid.Reader.ReadSMFFileHeader, mid.Reader.setHeader, mid.Reader.start, h]
  · simp [mid.Reader.ReadSMF]
  · simp [mid.Reader.ReadSMF, mid.Reader.start]
  · simp [mid.Reader.ReadSMF, mid.Reader.start]

/-! ## Messages cut short, and a header read that ends with the Finished sentinel -/

/-- C3 fails on the code: the message 90, a NoteOn status byte without data
bytes, is a NoteOnMsg, and GetNoteOn, which reads m[1] and m[2] without a test
of the length, indexes it out of range (the result `none`) where the claim says
it returns true; so it does on 90 40, which lacks the velocity.  GetSysEx, on a
message too short for it, returns false. -/
theorem getNoteOn_panics_on_truncated :
    Message.Is [0x90] NoteOnMsg = true ∧
    Message.GetNoteOn [0x90] 0 0 0 = none ∧
    Message.Is [0x90, 0x40] NoteOnMsg = true ∧
    Message.GetNoteOn [0x90, 0x40] 0 0 0 = none ∧
    Message.GetSysEx [0xF0] [] = some (false, []) := by
  and_intros <;> rfl

/-- C4 fails on the code: the message 80, a NoteOff status byte without data
bytes, is a NoteOffMsg, and GetNoteEnd, which reads m[1] and m[2] without a test
of the length, indexes it out of range (the result `none`) where the claim says
it returns true; so it does on the NoteOff 80 3D, which lacks the velocity, and
on the NoteOn 90 3D, of which no velocity can be told. -/
theorem getNoteEnd_panics_on_truncated :
    Message.Is [0x80] NoteOffMsg = true ∧
    Message.GetNoteEnd [0x80] 0 0 = none ∧
    Message.Is [0x80, 0x3D] NoteOffMsg = true ∧
    Message.GetNoteEnd [0x80, 0x3D] 0 0 = none ∧
    Message.Is [0x90, 0x3D] NoteOnMsg = true ∧
    Message.GetNoteEnd [0x90, 0x3D] 0 0 = none := by
  and_intros <;> rfl

/-- C6 fails on the code: the message E0 01, a pitch bend that lacks its second
data byte, is a PitchBendMsg, and GetPitchBend, which reads m[1] and m[2]
without a test of the length, indexes it out of range (the result `none`) where
the claim says it returns true; so it does with a nil relative or a nil
absolute, and on the status byte E0 alone. -/
theorem getPitchBend_panics_on_truncated :
    Message.Is [0xE0, 0x01] PitchBendMsg = true ∧
    Message.GetPitchBend [0xE0, 0x01] 0 (some 0) (some 0) = none ∧
    Message.GetPitchBend [0xE0, 0x01] 0 none (some 0) = none ∧
    Message.GetPitchBend [0xE0, 0x01] 0 (some 0) none = none ∧
    Message.Is [0xE0] PitchBendMsg = true ∧
    Message.GetPitchBend [0xE0] 0 (some 0) (some 0) = none := by
  and_intros <;> rfl

/-- C13 fails on the code: on the message 90, a NoteOn status byte without data
bytes, String calls GetNoteOn, which indexes the message out of range, so that
String returns no string at all (the result `none`) where the claim says it
returns one that starts with the type name; so it does on the song position
F2 01, which lacks its second data byte. -/
theorem string_panics_on_truncated :
    Message.Is [0x90] NoteOnMsg = true ∧
    Message.String [0x90] = none ∧
    Message.Is [0xF2, 0x01] SPPMsg = true ∧
    Message.String [0xF2, 0x01] = none := by
  and_intros <;> rfl

/-- C18 fails on the code: when reading the header ends with smf.ErrFinished,
ReadSMF returns smf.ErrFinished to its caller, whatever the reader held and
whatever dispatching would have ended with; ReadSMFFileHeader and ReadSMFFile,
which test the error of the same read against smf.ErrFinished, return nil. -/
theorem readSMF_returns_header_errFinished (r : mid.Reader) (hd : mid.Header)
    (dispatchErr : Option mid.Error) (dispatched : Option (Option mid.Error)) :
    (r.ReadSMF (some mid.Error.ErrFinished) hd dispatchErr).2
      = some mid.Error.ErrFinished ∧
    (r.ReadSMFFileHeader none (some mid.Error.ErrFinished) hd).2.2 = none ∧
    (r.ReadSMFFile (some mid.Error.ErrFinished) dispatched).2 = none := by
  refine ⟨?_, ?_, ?_⟩
  · simp [mid.Reader.ReadSMF]
  · simp [mid.Reader.ReadSMFFileHeader]
  · simp [mid.Reader.ReadSMFFile]

/-- C24 fails on the code: the message 90 40, a NoteOn that lacks its velocity,
is a NoteOnMsg, and neither GetNoteStart nor GetNoteEnd returns true on it: both
read m[2] without a test of the length and index the message out of range (the
result `none`).  On the NoteOff status byte 80 alone GetNoteStart returns false
and GetNoteEnd indexes the message out of range, so that again neither returns
true. -/
theorem noteStart_noteEnd_panic_on_truncated :
    Message.Is [0x90, 0x40] NoteOnMsg = true ∧
    Message.GetNoteStart [0x90, 0x40] 0 0 0 = none ∧
    Message.GetNoteEnd [0x90, 0x40] 0 0 = none ∧
    Message.Is [0x80] NoteOffMsg = true ∧
    Message.GetNoteStart [0x80] 0 0 0 = some (false, 0, 0, 0) ∧
    Message.GetNoteEnd [0x80] 0 0 = none := by
  and_intros <;> rfl

/-- C26 fails on the code: the message F2 01, a song position that lacks its
second data byte, is a SPPMsg, and GetSPP, which reads m[1] and m[2] without a
test of the length, indexes it out of range (the result `none`) where the claim
says it returns true; so it does on the status byte F2 alone. -/
theorem getSPP_panics_on_truncated :
    Message.Is [0xF2, 0x01] SPPMsg = true ∧
    Message.GetSPP [0xF2, 0x01] 0 = none ∧
    Message.Is [0xF2] SPPMsg = true ∧
    Message.GetSPP [0xF2] 0 = none := by
  and_intros <;> rfl

end Midi
